import Mathlib

/-!
The FTPS client of package ftps (ftp.go), embedded in Lean.

The control session is a value of `ServerConn` that every operation takes and
returns (Go mutates it through the pointer receiver).  The network is part of
that value: the replies the server is going to deliver, the outcome of every
further write and dial, and a log of what the session did on the wire.

Go strings are modelled by Lean strings.  The code searches for ASCII
delimiters and cuts at them, so positions counted in characters select the
same pieces as positions counted in bytes; the one cut at a fixed position, in
the DOS-style listing decoder, is exact on lines of ASCII characters.
-/

namespace Ftps

/-! ## Errors and results -/

/-- A Go error value: a `textproto.Error` (status code and message) or an error
that only carries a text. -/
inductive GoError where
  | status (code : Nat) (msg : String)
  | text (msg : String)
  deriving DecidableEq

/-- The code of a `textproto.Error` printed as by the format `%03d`. -/
def pad3 (code : Nat) : String :=
  (if code < 10 then "00" else if code < 100 then "0" else "") ++ toString code

/-- The method `Error()` of an error value. -/
def GoError.Error : GoError → String
  | .status code msg => pad3 code ++ " " ++ msg
  | .text msg => msg

/-- What a Go function of type `(T, error)` does: it returns a value, returns
an error, or panics at run time. -/
inductive Res (α : Type) where
  | ok (a : α)
  | err (e : GoError)
  | panic (why : String)
  deriving DecidableEq

/-! ## Status codes -/

/-- Modelled from the spec: the status constants (this one and the fourteen that
follow) are declared in a file that is not among the sources; their values are
the reply codes of RFC 959, RFC 2228 and RFC 2428 for the statuses the spec
names ("ready", "logged in", "user OK, need password", ...). -/
def StatusAlreadyOpen : Int := 125
def StatusAboutToSend : Int := 150
def StatusCommandOK : Int := 200
def StatusSystem : Int := 211
def StatusReady : Int := 220
def StatusClosing : Int := 221
def StatusClosingDataConnection : Int := 226
def StatusPassiveMode : Int := 227
def StatusExtendedPassiveMode : Int := 229
def StatusLoggedIn : Int := 230
def StatusAuthTLS : Int := 234
def StatusRequestedFileActionOK : Int := 250
def StatusPathCreated : Int := 257
def StatusUserOK : Int := 331
def StatusRequestFilePending : Int := 350

/-! ## Strings -/

/-- Go's `strings.HasPrefix(s, p)`: whether `s` begins with `p`. -/
def HasPrefix (s p : String) : Bool := p.data.isPrefixOf s.data

/-- First position at which `sub` occurs in `s`, or -1 (`strings.Index`). -/
def indexChars (sub : List Char) : List Char → Int
  | [] => if sub.isPrefixOf [] then 0 else -1
  | c :: rest =>
    if sub.isPrefixOf (c :: rest) then 0
    else
      let r := indexChars sub rest
      if r = -1 then -1 else r + 1

/-- Last position at which `sub` occurs in `s`, or -1 (`strings.LastIndex`). -/
def lastIndexChars (sub : List Char) : List Char → Int
  | [] => if sub.isPrefixOf [] then 0 else -1
  | c :: rest =>
    let r := lastIndexChars sub rest
    if r = -1 then (if sub.isPrefixOf (c :: rest) then 0 else -1) else r + 1

/-- Go's `strings.Index`. -/
def Index (s sub : String) : Int := indexChars sub.data s.data

/-- Go's `strings.LastIndex`. -/
def LastIndex (s sub : String) : Int := lastIndexChars sub.data s.data

/-- The slice expression `s[lo:hi]`; `none` stands for the run-time panic
"slice bounds out of range". -/
def slice (s : String) (lo hi : Int) : Option String :=
  if 0 ≤ lo ∧ lo ≤ hi ∧ hi ≤ (s.data.length : Int) then
    some ⟨(s.data.drop lo.toNat).take (hi.toNat - lo.toNat)⟩
  else none

/-- Pieces of `s` between the occurrences of the separator character. -/
def splitChars (sep : Char) : List Char → List (List Char)
  | [] => [[]]
  | c :: rest =>
    if c = sep then [] :: splitChars sep rest
    else
      match splitChars sep rest with
      | [] => [[c]]
      | piece :: more => (c :: piece) :: more

/-- Go's `strings.Split(s, sep)` for a separator of one character. -/
def Split (s : String) (sep : Char) : List String :=
  (splitChars sep s.data).map String.mk

/-! ## The control connection -/

/-- What one call of `ReadResponse` finds on the control connection: a
well-formed reply, or a failure to read one. -/
inductive Incoming where
  | reply (code : Nat) (msg : String)
  | broken (e : GoError)
  deriving DecidableEq

/-- What the session did on the wire, oldest first. -/
inductive Event where
  | sent (line : String)
  | read (expect : Int)
  | tlsClient
  | dialed (port : Int)
  | dataTLS
  | dataCopied
  | dataClosed
  | controlClosed
  deriving DecidableEq

/-- The fields of `tls.Config` the package sets. -/
structure TLSConfig where
  InsecureSkipVerify : Bool
  RootCAs : Option (List String)
  deriving DecidableEq

/-- The struct `ServerConn`.  `conn` and `tcpconn` are the first four fields:
the replies still to come, the outcome of every further write, whether the
transport was closed, and the log. `dials` is the outcome of every further
`net.DialTimeout` for a data connection. -/
structure ServerConn where
  incoming : List Incoming
  writes : List (Option GoError)
  closed : Bool
  log : List Event
  dials : List (Option GoError)
  tlsConfig : Option TLSConfig
  tlsSecuredControlConnection : Bool
  tlsSecuredDataConnection : Bool
  hostname : String
  hostcontrolport : String
  username : String
  password : String
  certfilename : String
  timeout : Nat
  features : List (String × String)
  deriving DecidableEq

/-- The error of an operation on a closed transport. -/
def errClosed : GoError := .text "use of closed network connection"

/-- The error of a read when the server sends nothing more. -/
def errEOF : GoError := .text "EOF"

/-- The method `Cmd` of `textproto.Conn`: writes one command line. -/
def connCmd (c : ServerConn) (line : String) : Option GoError × ServerConn :=
  if c.closed then (some errClosed, c)
  else
    match c.writes with
    | some e :: ws => (some e, { c with writes := ws })
    | none :: ws => (none, { c with writes := ws, log := c.log ++ [.sent line] })
    | [] => (none, { c with log := c.log ++ [.sent line] })

/-- The test of `textproto` on the code of a reply: whether `code` is not what
`expectCode` asks for. -/
def unexpected (expectCode : Int) (code : Nat) : Bool :=
  (1 ≤ expectCode && expectCode < 10 && ((code : Int) / 100 != expectCode)) ||
  (10 ≤ expectCode && expectCode < 100 && ((code : Int) / 10 != expectCode)) ||
  (100 ≤ expectCode && expectCode < 1000 && ((code : Int) != expectCode))

/-- The method `ReadResponse` of `textproto.Conn`: the code and message of the
next reply, with the error `textproto.Error` when the code is not the expected
one. -/
def connReadResponse (c : ServerConn) (expectCode : Int) :
    (Nat × String × Option GoError) × ServerConn :=
  if c.closed then ((0, "", some errClosed), c)
  else
    let c1 := { c with log := c.log ++ [.read expectCode] }
    match c.incoming with
    | [] => ((0, "", some errEOF), c1)
    | .broken e :: more => ((0, "", some e), { c1 with incoming := more })
    | .reply code msg :: more =>
      if unexpected expectCode code then
        ((code, msg, some (.status code msg)), { c1 with incoming := more })
      else ((code, msg, none), { c1 with incoming := more })

/-- The method `Close` of `textproto.Conn`. -/
def connClose (c : ServerConn) : Option GoError × ServerConn :=
  if c.closed then (some errClosed, c)
  else (none, { c with closed := true, log := c.log ++ [.controlClosed] })

/-- The helper `cmd`: sends a command and reads the reply, checking the code. -/
def cmd (c : ServerConn) (expected : Int) (line : String) :
    (Nat × String × Option GoError) × ServerConn :=
  match connCmd c line with
  | (some e, c1) => ((0, "", some e), c1)
  | (none, c1) => connReadResponse c1 expected

/-! ## One-shot verbs -/

/-- The method `CurrentDir`: issues PWD and cuts the quoted path out of the
reply. -/
def CurrentDir (c : ServerConn) : Res String × ServerConn :=
  match cmd c StatusPathCreated "PWD" with
  | ((_, _, some e), c1) => (.err e, c1)
  | ((_, msg, none), c1) =>
    let start := Index msg "\""
    let stop := LastIndex msg "\""
    if start = -1 ∨ stop = -1 then
      (.err (.text "Unsuported PWD response format"), c1)
    else
      match slice msg (start + 1) stop with
      | some dir => (.ok dir, c1)
      | none => (.panic "slice bounds out of range", c1)

/-- The method `Quit`: issues QUIT and closes the control connection. -/
def Quit (c : ServerConn) : Option GoError × ServerConn :=
  match cmd c StatusClosing "QUIT" with
  | ((_, _, some e), c1) => (some e, c1)
  | ((_, _, none), c1) => connClose c1

/-! ## Parallel transfers -/

/-- Modelled from the spec: the type `TransferDirction` is declared in a file
that is not among the sources; the spec gives the two directions, and `other`
stands for any further value of the type. -/
inductive TransferDirction where
  | Store
  | Retrieve
  | other
  deriving DecidableEq

/-- Modelled from the spec: the struct `TransferTask` is declared in a file that
is not among the sources; a task has a direction, a local path, a remote path
and the flag `finished` that marks a stop token. -/
structure TransferTask where
  direction : TransferDirction
  localpath : String
  remotepath : String
  finished : Bool
  deriving DecidableEq

/-- The zero value `TransferTask{finished: true}` put on the queue as a stop
token. -/
def stopToken : TransferTask :=
  { direction := .Store, localpath := "", remotepath := "", finished := true }

/-- A buffered Go channel seen from one thread: its capacity and the items it
holds, oldest first. -/
structure Chan (α : Type) where
  cap : Nat
  buf : List α
  deriving DecidableEq

/-- The statement `make(chan T, size)`; a negative size panics. -/
def makeChan (α : Type) (size : Int) : Option (Chan α) :=
  if 0 ≤ size then some { cap := size.toNat, buf := [] } else none

/-- The statement `ch <- x`; `none` when the buffer is full and the send has to
wait for a receiver. -/
def Chan.send {α : Type} (ch : Chan α) (x : α) : Option (Chan α) :=
  if ch.buf.length < ch.cap then some { ch with buf := ch.buf ++ [x] } else none

/-- The expression `<-ch`; `none` when the buffer is empty and the receive has
to wait for a sender. -/
def Chan.recv {α : Type} (ch : Chan α) : Option (α × Chan α) :=
  match ch.buf with
  | [] => none
  | x :: rest => some (x, { ch with buf := rest })

/-- How a call of `MultipleTransfer` ends: it returns (nil or an error), it
panics, or the calling thread waits on a channel for ever. -/
inductive Run where
  | returned (e : Option GoError)
  | panicked (why : String)
  | blocked (site : String)
  deriving DecidableEq

/-- The clamp of `MultipleTransfer`: not more connections than tasks, and a
negative number means one per task. -/
def clampParallel (len : Nat) (nrParallel : Int) : Int :=
  if (len : Int) < nrParallel ∨ nrParallel < 0 then (len : Int) else nrParallel

/-- The loop that sends every task, with `finished` reset, to the task
channel. -/
def enqueueTasks : List TransferTask → Chan TransferTask → Option (Chan TransferTask)
  | [], ch => some ch
  | task :: rest, ch =>
    match ch.send { task with finished := false } with
    | some ch1 => enqueueTasks rest ch1
    | none => none

/-- The loop `for i := 0; i < n; i++` that sends one stop token per round; the
first argument is the number of rounds. -/
def enqueueStops : Nat → Chan TransferTask → Option (Chan TransferTask)
  | 0, ch => some ch
  | n + 1, ch =>
    match ch.send stopToken with
    | some ch1 => enqueueStops n ch1
    | none => none

/-- The state of `MultipleTransfer` when its own dequeue loop starts: the
clamped concurrency, the two channels, and the number of goroutines started by
the loop `for i := 0; i < nrParallel-1; i++`. -/
structure Setup where
  nrParallel : Int
  taskChannel : Chan TransferTask
  returnChannel : Chan (Option GoError)
  workers : Nat
  deriving DecidableEq

/-- Lines 675 to 694 of `MultipleTransfer`: clamp, make the channels, fill the
task channel, start the worker goroutines.  An error is the way the call ends
when it does not get through: a panic of `make`, or a send that waits for
ever on a full task channel (no goroutine receives yet). -/
def setup (tasks : List TransferTask) (nrParallel : Int) : Except Run Setup :=
  let n := clampParallel tasks.length nrParallel
  match makeChan TransferTask ((tasks.length : Int) + n),
      makeChan (Option GoError) (tasks.length : Int) with
  | some tc, some rc =>
    match enqueueTasks tasks tc with
    | none => .error (.blocked "send on task channel")
    | some tc1 =>
      match enqueueStops n.toNat tc1 with
      | none => .error (.blocked "send on task channel")
      | some tc2 =>
        .ok { nrParallel := n, taskChannel := tc2, returnChannel := rc,
              workers := (n - 1).toNat }
  | _, _ => .error (.panicked "makechan: size out of range")

/-- What the worker sessions and the transfers do, as far as the calling thread
can see.  The two task helpers are not among the sources: each yields the
outcome of one transfer (what the transfer does to the session is left out).
`taken i` says whether a worker session dequeued the item at place `i` of the
task channel; `arrivals own` is the sequence of outcomes that reaches the
result channel when the calling thread itself put `own` there.  Both are only
consulted when a worker session was started. -/
structure World where
  parallelStorTask : TransferTask → Option GoError
  parallelRetrTask : TransferTask → Option GoError
  taken : Nat → Bool
  arrivals : List (Option GoError) → List (Option GoError)

/-- The items of the task channel that are left to the calling thread. -/
def leftOver (taken : Nat → Bool) : Nat → List TransferTask → List TransferTask
  | _, [] => []
  | i, t :: rest =>
    if taken i then leftOver taken (i + 1) rest else t :: leftOver taken (i + 1) rest

/-- The dequeue loop of the calling thread, lines 696 to 707: `queue` is what
it can receive from the task channel, `out` the result channel.  An error
names the channel operation on which the thread waits for ever: a receive on
the empty task channel (nobody sends tasks any more) or a send to the full
result channel (nobody else receives outcomes). -/
def mainLoop (w : World) :
    List TransferTask → Chan (Option GoError) → Except String (Chan (Option GoError))
  | [], _ => .error "receive on task channel"
  | task :: queue, out =>
    if task.finished then .ok out
    else
      let outcome :=
        if task.direction = .Store then w.parallelStorTask task
        else if task.direction = .Retrieve then w.parallelRetrTask task
        else some (.text "Unknown direction for transfer.")
      match out.send outcome with
      | some out1 => mainLoop w queue out1
      | none => .error "send on result channel"

/-- The state of the drain loop when it stops: how many outcomes it read and
the message it built. -/
structure Drained where
  read : Nat
  errorMessage : String
  deriving DecidableEq

/-- The drain loop, lines 709 to 719, from the state `normalReplay`,
`goRoutineResetReply`, `errorMessage`; the first argument after the two bounds
is the sequence of outcomes that reaches the result channel from now on.
`none` is a receive that waits for ever because no further outcome arrives. -/
def drainFrom (len : Nat) (nrParallel : Int) :
    List (Option GoError) → Nat → Int → String → Option Drained
  | [], normalReplay, goRoutineResetReply, errorMessage =>
    if normalReplay < len ∧ goRoutineResetReply < nrParallel then none
    else some { read := normalReplay, errorMessage := errorMessage }
  | replay :: rest, normalReplay, goRoutineResetReply, errorMessage =>
    if normalReplay < len ∧ goRoutineResetReply < nrParallel then
      match replay with
      | none => drainFrom len nrParallel rest (normalReplay + 1) goRoutineResetReply errorMessage
      | some e =>
        let errorMessage1 := errorMessage ++ "\n" ++ e.Error
        if HasPrefix "Go routine reset." e.Error then
          drainFrom len nrParallel rest (normalReplay + 1) (goRoutineResetReply + 1) errorMessage1
        else
          drainFrom len nrParallel rest (normalReplay + 1) goRoutineResetReply errorMessage1
    else some { read := normalReplay, errorMessage := errorMessage }

/-- The drain loop from its initial state. -/
def drain (len : Nat) (nrParallel : Int) (chan : List (Option GoError)) : Option Drained :=
  drainFrom len nrParallel chan 0 0 ""

/-- The last statement of `MultipleTransfer`, lines 720 to 724. -/
def aggregate (errorMessage : String) : Option GoError :=
  if errorMessage = "" then none else some (.text errorMessage)

/-- The method `MultipleTransfer`. -/
def MultipleTransfer (c : ServerConn) (w : World) (tasks : List TransferTask)
    (nrParallel : Int) : Run × ServerConn :=
  match CurrentDir c with
  | (.err e, c1) => (.returned (some e), c1)
  | (.panic why, c1) => (.panicked why, c1)
  | (.ok _, c1) =>
    match setup tasks nrParallel with
    | .error stop => (stop, c1)
    | .ok s =>
      let queue :=
        if s.workers = 0 then s.taskChannel.buf else leftOver w.taken 0 s.taskChannel.buf
      match mainLoop w queue s.returnChannel with
      | .error site => (.blocked site, c1)
      | .ok out =>
        let chan := if s.workers = 0 then out.buf else w.arrivals out.buf
        match drain tasks.length s.nrParallel chan with
        | none => (.blocked "receive on result channel", c1)
        | some d => (.returned (aggregate d.errorMessage), c1)

/-! ## Passive mode and data connections -/

/-- Whether the character is one of `0` to `9`. -/
def isDigit (ch : Char) : Bool := '0' ≤ ch ∧ ch ≤ '9'

/-- Why `strconv.Atoi` rejects an input. -/
inductive NumFault where
  | syntaxFault
  | rangeFault
  deriving DecidableEq

/-- The digit loop of `strconv.Atoi` and `strconv.ParseUint`: the value read so
far is `n`; a character that is no digit is a syntax fault, a value that no
longer fits 64 bits a range fault, whichever comes first. -/
def parseDigits : List Char → Nat → Except NumFault Nat
  | [], n => .ok n
  | ch :: rest, n =>
    if ¬ isDigit ch then .error .syntaxFault
    else if 2 ^ 64 ≤ n * 10 + (ch.toNat - '0'.toNat) then .error .rangeFault
    else parseDigits rest (n * 10 + (ch.toNat - '0'.toNat))

/-- The error value of `strconv.Atoi`; the text holds the input as it is, where
Go quotes it. -/
def numError (s : String) : NumFault → GoError
  | .syntaxFault => .text ("strconv.Atoi: parsing \"" ++ s ++ "\": invalid syntax")
  | .rangeFault => .text ("strconv.Atoi: parsing \"" ++ s ++ "\": value out of range")

/-- Go's `strconv.Atoi` for an `int` of 64 bits: an optional sign, then one or
more digits; a value outside the range of `int` is an error. -/
def Atoi (s : String) : Except GoError Int :=
  let negative := s.data.head? = some '-'
  let digits := if s.data.head? = some '-' ∨ s.data.head? = some '+' then s.data.tail else s.data
  if digits = [] then .error (numError s .syntaxFault)
  else
    match parseDigits digits 0 with
    | .error fault => .error (numError s fault)
    | .ok n =>
      if negative then
        (if n ≤ 2 ^ 63 then .ok (-(n : Int)) else .error (numError s .rangeFault))
      else
        (if n < 2 ^ 63 then .ok (n : Int) else .error (numError s .rangeFault))

/-- The value of an `int` expression after it wraps around at 64 bits. -/
def wrapInt (x : Int) : Int := (x + 2 ^ 63) % 2 ^ 64 - 2 ^ 63

/-- The part of `epsv` after the reply was read: the port between `|||` and the
last `|` of the reply message. -/
def epsvPort (line : String) : Res Int :=
  let start := Index line "|||"
  let stop := LastIndex line "|"
  if start = -1 ∨ stop = -1 then .err (.text "Invalid EPSV response format")
  else
    match slice line (start + 3) stop with
    | none => .panic "slice bounds out of range"
    | some field =>
      match Atoi field with
      | .error e => .err e
      | .ok port => .ok port

/-- The method `epsv`: issues EPSV and parses the port of the reply. -/
def epsv (c : ServerConn) : Res Int × ServerConn :=
  match cmd c StatusExtendedPassiveMode "EPSV" with
  | ((_, _, some e), c1) => (.err e, c1)
  | ((_, line, none), c1) => (epsvPort line, c1)

/-- The part of `pasv` after the reply was read: the port from the fifth and
sixth field between the first `(` and the last `)` of the reply message. -/
def pasvPort (line : String) : Res Int :=
  let start := Index line "("
  let stop := LastIndex line ")"
  if start = -1 ∨ stop = -1 then .err (.text "Invalid PASV response format")
  else
    match slice line (start + 1) stop with
    | none => .panic "slice bounds out of range"
    | some inner =>
      let pasvData := Split inner ','
      match pasvData.get? 4 with
      | none => .panic "index out of range"
      | some field4 =>
        match Atoi field4 with
        | .error err1 => .err err1
        | .ok portPart1 =>
          match pasvData.get? 5 with
          | none => .panic "index out of range"
          | some field5 =>
            match Atoi field5 with
            | .error err2 => .err err2
            | .ok portPart2 => .ok (wrapInt (portPart1 * 256 + portPart2))

/-- The method `pasv`: issues PASV and parses the port of the reply. -/
def pasv (c : ServerConn) : Res Int × ServerConn :=
  match cmd c StatusPassiveMode "PASV" with
  | ((_, _, some e), c1) => (.err e, c1)
  | ((_, line, none), c1) => (pasvPort line, c1)

/-- A data connection: the port it was dialed to and whether it is wrapped in
TLS. -/
structure DataConn where
  port : Int
  secured : Bool
  deriving DecidableEq

/-- Whether the feature map has the key. -/
def hasFeature (c : ServerConn) (key : String) : Bool := (c.features.lookup key).isSome

/-- The call `net.DialTimeout` and the TLS wrapping at the end of
`openDataConn`. -/
def dialData (c : ServerConn) (port : Int) : Res DataConn × ServerConn :=
  match c.dials with
  | some e :: ds => (.err e, { c with dials := ds })
  | ds =>
    let c1 := { c with dials := ds.tail, log := c.log ++ [.dialed port] }
    if c.tlsSecuredDataConnection then
      (.ok { port := port, secured := true }, { c1 with log := c1.log ++ [.dataTLS] })
    else (.ok { port := port, secured := false }, c1)

/-- The second half of `openDataConn`: EPSV when the port is still 0, then the
dial. -/
def openDataConnWith (c : ServerConn) (port : Int) : Res DataConn × ServerConn :=
  if port = 0 then
    match epsv c with
    | (.err e, c1) => (.err e, c1)
    | (.panic why, c1) => (.panic why, c1)
    | (.ok port1, c1) => dialData c1 port1
  else dialData c port

/-- The method `openDataConn`. -/
def openDataConn (c : ServerConn) : Res DataConn × ServerConn :=
  let nat6Supported := hasFeature c "nat6"
  let epsvSupported := hasFeature c "EPSV"
  if !nat6Supported && !epsvSupported then
    match pasv c with
    | (.panic why, c1) => (.panic why, c1)
    | (.err _, c1) => openDataConnWith c1 0
    | (.ok port, c1) => openDataConnWith c1 port
  else openDataConnWith c 0

/-- The method `Close` of a data connection. -/
def dataClose (c : ServerConn) : ServerConn := { c with log := c.log ++ [.dataClosed] }

/-- The method `cmdDataConnFrom`; `line` is the formatted transfer command. -/
def cmdDataConnFrom (c : ServerConn) (offset : Nat) (line : String) :
    Res DataConn × ServerConn :=
  match openDataConn c with
  | (.err e, c1) => (.err e, c1)
  | (.panic why, c1) => (.panic why, c1)
  | (.ok conn, c1) =>
    let rest :=
      if offset ≠ 0 then cmd c1 StatusRequestFilePending ("REST " ++ toString offset)
      else ((0, "", none), c1)
    match rest with
    | ((_, _, some e), c2) => (.err e, c2)
    | ((_, _, none), c2) =>
      match connCmd c2 line with
      | (some e, c3) => (.err e, dataClose c3)
      | (none, c3) =>
        match connReadResponse c3 (-1) with
        | ((_, _, some e), c4) => (.err e, dataClose c4)
        | ((code, msg, none), c4) =>
          if (code : Int) ≠ StatusAlreadyOpen ∧ (code : Int) ≠ StatusAboutToSend then
            (.err (.status code msg), dataClose c4)
          else (.ok conn, c4)

/-- The method `StorFrom`; `copy` is what `io.Copy` from the reader to the data
connection returns. -/
def StorFrom (c : ServerConn) (path : String) (copy : Option GoError) (offset : Nat) :
    Res Unit × ServerConn :=
  match cmdDataConnFrom c offset ("STOR " ++ path) with
  | (.err e, c1) => (.err e, c1)
  | (.panic why, c1) => (.panic why, c1)
  | (.ok _, c1) =>
    let c2 := dataClose { c1 with log := c1.log ++ [.dataCopied] }
    match copy with
    | some e => (.err e, c2)
    | none =>
      match connReadResponse c2 StatusClosingDataConnection with
      | ((_, _, some e), c3) => (.err e, c3)
      | ((_, _, none), c3) => (.ok (), c3)

/-- The method `Close` of `response`, the reader that `RetrFrom` returns:
closes the data connection, then reads the confirmation; `closeErr` is what
closing the data connection returns. -/
def responseClose (c : ServerConn) (closeErr : Option GoError) : Option GoError × ServerConn :=
  match connReadResponse (dataClose c) StatusClosingDataConnection with
  | ((_, _, some err2), c1) => (some err2, c1)
  | ((_, _, none), c1) => (closeErr, c1)

/-! ## Features, login, TLS -/

/-- Go's `unicode.IsSpace`. -/
def isSpace (ch : Char) : Bool :=
  ch = ' ' ∨ ('\t' ≤ ch ∧ ch ≤ '\r') ∨ ch.toNat = 0x85 ∨ ch.toNat = 0xA0 ∨ ch.toNat = 0x1680 ∨
    (0x2000 ≤ ch.toNat ∧ ch.toNat ≤ 0x200A) ∨ ch.toNat = 0x2028 ∨ ch.toNat = 0x2029 ∨
    ch.toNat = 0x202F ∨ ch.toNat = 0x205F ∨ ch.toNat = 0x3000

/-- Go's `strings.TrimSpace`. -/
def TrimSpace (s : String) : String :=
  ⟨((s.data.dropWhile isSpace).reverse.dropWhile isSpace).reverse⟩

/-- Go's `strings.SplitN(s, " ", 2)`: the text before the first space and, when
there is a space, the text after it. -/
def splitAtSpace (s : String) : List String :=
  match s.data.span (fun ch => ch ≠ ' ') with
  | (name, []) => [⟨name⟩]
  | (name, _ :: desc) => [⟨name⟩, ⟨desc⟩]

/-- The assignment `m[key] = value` on the feature map. -/
def setFeature (m : List (String × String)) (key value : String) : List (String × String) :=
  (key, value) :: m.filter (fun kv => kv.1 ≠ key)

/-- The body of the loop of `Feat` for one line of the reply. -/
def featLine (features : List (String × String)) (line : String) : List (String × String) :=
  if !HasPrefix line " " then features
  else
    let featureElements := splitAtSpace (TrimSpace line)
    let command := featureElements.headD ""
    let commandDesc := if featureElements.length = 2 then featureElements.getD 1 "" else ""
    setFeature features command commandDesc

/-- The method `Feat`. -/
def Feat (c : ServerConn) : Option GoError × ServerConn :=
  match cmd c (-1) "FEAT" with
  | ((_, _, some e), c1) => (some e, c1)
  | ((code, message, none), c1) =>
    if (code : Int) ≠ StatusSystem then (none, c1)
    else (none, { c1 with features := (Split message '\n').foldl featLine c1.features })

/-- The second half of `Login`, lines 170 to 185: stores the credentials,
switches to binary mode and probes the features again. -/
def loginFinish (c : ServerConn) (user password : String) : Option GoError × ServerConn :=
  let c1 := { c with username := user, password := password }
  match cmd c1 StatusCommandOK "TYPE I" with
  | ((_, _, some e), c2) => (some e, c2)
  | ((_, _, none), c2) =>
    match Feat c2 with
    | (some e, c3) => (some e, (Quit c3).2)
    | (none, c3) => (none, c3)

/-- The method `Login`. -/
def Login (c : ServerConn) (user password : String) : Option GoError × ServerConn :=
  match cmd c (-1) ("USER " ++ user) with
  | ((_, _, some e), c1) => (some e, c1)
  | ((code, message, none), c1) =>
    if (code : Int) = StatusLoggedIn then loginFinish c1 user password
    else if (code : Int) = StatusUserOK then
      match cmd c1 StatusLoggedIn ("PASS " ++ password) with
      | ((_, _, some e), c2) => (some e, c2)
      | ((_, _, none), c2) => loginFinish c2 user password
    else (some (.text message), c1)

/-- The method `AuthTLS`. -/
def AuthTLS (c : ServerConn) : Option GoError × ServerConn :=
  match c.tlsConfig with
  | none => (some (.text "TLS-configuration ist missing."), c)
  | some _ =>
    match cmd c StatusAuthTLS "AUTH TLS" with
    | ((_, _, some e), c1) => (some (.text ("Error while AUTH TLS command. " ++ e.Error)), c1)
    | ((_, _, none), c1) =>
      let c2 := { c1 with log := c1.log ++ [.tlsClient], tlsSecuredControlConnection := true }
      match cmd c2 StatusCommandOK "PBSZ 0" with
      | ((_, _, some e), c3) => (some (.text ("Error while PBSZ 0 command. " ++ e.Error)), c3)
      | ((_, _, none), c3) =>
        match cmd c3 StatusCommandOK "PROT P" with
        | ((_, _, some e), c4) => (some (.text ("Error while PBSZ 0 command. " ++ e.Error)), c4)
        | ((_, _, none), c4) => (none, { c4 with tlsSecuredDataConnection := true })

/-! ## Directory listings -/

/-- The constants `EntryTypeFile`, `EntryTypeFolder`, `EntryTypeLink` of the
package of `Entry`, which is not among the sources; the first is the zero
value. -/
inductive EntryType where
  | EntryTypeFile
  | EntryTypeFolder
  | EntryTypeLink
  deriving DecidableEq

/-- The struct `Entry` of that package, with the fields the decoders set; `Kind`
is its field `Type`, and a time is a number that stands for it. -/
structure Entry where
  Name : String
  Kind : EntryType
  Size : Nat
  Time : Int
  deriving DecidableEq

/-- The value `&Entry{}`. -/
def emptyEntry : Entry := { Name := "", Kind := .EntryTypeFile, Size := 0, Time := 0 }

/-- What the decoders call and the sources do not hold: `time.Parse(layout,
value)` of the standard library, and the methods `SetSize` and `SetTime` of
`Entry`, each of which returns the entry as it leaves it and its error. -/
structure EntryLib where
  timeParse : String → String → Except GoError Int
  SetSize : Entry → String → Entry × Option GoError
  SetTime : Entry → List String → Entry × Option GoError

/-- What a decoder of a listing line does: it returns an entry, it returns the
error value `errUnsupportedListLine` (the line is not in its format), it
returns another error, or it panics. -/
inductive Parsed where
  | entry (e : Entry)
  | unsupported
  | failed (err : GoError)
  | panic (why : String)
  deriving DecidableEq

/-- The words of `strings.Fields`: `cur` is the word read so far, backwards. -/
def fieldsChars : List Char → List Char → List (List Char)
  | [], cur => if cur = [] then [] else [cur.reverse]
  | ch :: rest, cur =>
    if isSpace ch then
      (if cur = [] then fieldsChars rest [] else cur.reverse :: fieldsChars rest [])
    else fieldsChars rest (ch :: cur)

/-- Go's `strings.Fields`. -/
def Fields (s : String) : List String := (fieldsChars s.data []).map String.mk

/-- The slice expression `fields[lo:hi]` on a slice whose capacity is its
length; `none` stands for the panic "slice bounds out of range". -/
def sliceList {α : Type} (l : List α) (lo hi : Nat) : Option (List α) :=
  if lo ≤ hi ∧ hi ≤ l.length then some ((l.drop lo).take (hi - lo)) else none

/-- Go's `strings.Join(parts, " ")`. -/
def Join (parts : List String) : String := " ".intercalate parts

/-- Go's `strings.TrimLeft(s, " ")`. -/
def TrimLeft (s : String) : String := ⟨s.data.dropWhile (fun ch => ch = ' ')⟩

/-- Go's `strconv.ParseUint(s, 10, 64)`; `none` stands for its error. -/
def ParseUint (s : String) : Option Nat :=
  if s.data = [] then none
  else
    match parseDigits s.data 0 with
    | .ok n => some n
    | .error _ => none

/-- The body of the loop of `parseRFC3659ListLine` for one field `key=value`;
the result `entry` is the entry the loop goes on with. -/
def rfc3659Field (lib : EntryLib) (e : Entry) (field : String) : Parsed :=
  let i := Index field "="
  if i < 1 then .unsupported
  else
    match slice field 0 i, slice field (i + 1) field.data.length with
    | some key, some value =>
      if key = "modify" then
        match lib.timeParse "20060102150405" value with
        | .error err => .failed err
        | .ok t => .entry { e with Time := t }
      else if key = "type" then
        (if value = "dir" ∨ value = "cdir" ∨ value = "pdir" then
          .entry { e with Kind := .EntryTypeFolder }
        else if value = "file" then .entry { e with Kind := .EntryTypeFile }
        else .entry e)
      else if key = "size" then .entry (lib.SetSize e value).1
      else .entry e
    | _, _ => .panic "slice bounds out of range"

/-- The loop of `parseRFC3659ListLine` over the fields. -/
def rfc3659Fields (lib : EntryLib) : List String → Entry → Parsed
  | [], e => .entry e
  | field :: rest, e =>
    match rfc3659Field lib e field with
    | .entry e1 => rfc3659Fields lib rest e1
    | r => r

/-- The decoder `parseRFC3659ListLine` of the structured-facts format. -/
def parseRFC3659ListLine (lib : EntryLib) (line : String) : Parsed :=
  let iSemicolon := Index line ";"
  let iWhitespace := Index line " "
  if iSemicolon < 0 ∨ iSemicolon > iWhitespace then .unsupported
  else
    match slice line (iWhitespace + 1) line.data.length, slice line 0 (iWhitespace - 1) with
    | some name, some facts =>
      rfc3659Fields lib (Split facts ';') { emptyEntry with Name := name }
    | _, _ => .panic "slice bounds out of range"

/-- The last part of `parseLsListLine`, lines 448 to 468, for a line of nine
or more fields: the type from the first character, then time and name. -/
def lsLongLine (lib : EntryLib) (fields : List String) : Parsed :=
  match (fields.get? 0).bind (fun f => f.data.head?) with
  | none => .panic "index out of range"
  | some ch =>
    let typed : Parsed :=
      if ch = '-' then
        match fields.get? 4 with
        | none => .panic "index out of range"
        | some f4 =>
          match lib.SetSize { emptyEntry with Kind := .EntryTypeFile } f4 with
          | (_, some err) => .failed err
          | (e1, none) => .entry e1
      else if ch = 'd' then .entry { emptyEntry with Kind := .EntryTypeFolder }
      else if ch = 'l' then .entry { emptyEntry with Kind := .EntryTypeLink }
      else .failed (.text "Unknown entry type")
    match typed with
    | .entry e1 =>
      match sliceList fields 5 8 with
      | none => .panic "slice bounds out of range"
      | some when =>
        match lib.SetTime e1 when with
        | (_, some err) => .failed err
        | (e2, none) =>
          match sliceList fields 8 fields.length with
          | none => .panic "slice bounds out of range"
          | some nameParts => .entry { e2 with Name := Join nameParts }
    | r => r

/-- The decoder `parseLsListLine` of the Unix style. -/
def parseLsListLine (lib : EntryLib) (line : String) : Parsed :=
  let fields := Fields line
  if fields.length ≥ 7 ∧ fields.get? 1 = some "folder" ∧ fields.get? 2 = some "0" then
    match sliceList fields 6 fields.length, sliceList fields 3 6 with
    | some nameParts, some when =>
      match lib.SetTime { emptyEntry with Kind := .EntryTypeFolder, Name := Join nameParts }
          when with
      | (_, some err) => .failed err
      | (e1, none) => .entry e1
    | _, _ => .panic "slice bounds out of range"
  else
    match fields.get? 1 with
    | none => .panic "index out of range"
    | some f1 =>
      if f1 = "0" then
        match sliceList fields 7 fields.length with
        | none => .panic "slice bounds out of range"
        | some nameParts =>
          match fields.get? 2 with
          | none => .panic "index out of range"
          | some f2 =>
            match lib.SetSize { emptyEntry with Kind := .EntryTypeFile, Name := Join nameParts }
                f2 with
            | (_, some err) => .failed err
            | (e1, none) =>
              match sliceList fields 4 7 with
              | none => .panic "slice bounds out of range"
              | some when =>
                match lib.SetTime e1 when with
                | (_, some err) => .failed err
                | (e2, none) => .entry e2
      else if fields.length < 9 then .unsupported
      else lsLongLine lib fields

/-- The variable `dirTimeFormats`. -/
def dirTimeFormats : List String := ["01-02-06  03:04PM", "2006-01-02  15:04"]

/-- The loop of `parseDirListLine` over the time formats, from the state
`e.Time`, `err`: it returns the time, the error and the line that is left
when it ends, or panics when the line is shorter than a format.  The positions
are counted in characters, which are the bytes of Go on a line of ASCII
characters. -/
def dirTimeLoop (lib : EntryLib) (line : String) :
    List String → Int → Option GoError → Res (Int × Option GoError × String)
  | [], t, err => .ok (t, err, line)
  | format :: more, _, _ =>
    match slice line 0 format.data.length,
        slice line format.data.length line.data.length with
    | some head, some tail =>
      match lib.timeParse format head with
      | .ok t1 => .ok (t1, none, tail)
      | .error e1 => dirTimeLoop lib line more 0 (some e1)
    | _, _ => .panic "slice bounds out of range"

/-- The decoder `parseDirListLine` of the DOS style. -/
def parseDirListLine (lib : EntryLib) (line : String) : Parsed :=
  match dirTimeLoop lib line dirTimeFormats 0 none with
  | .panic why => .panic why
  | .err err => .failed err
  | .ok (_, some _, _) => .unsupported
  | .ok (t, none, line1) =>
    let line2 := TrimLeft line1
    if HasPrefix line2 "<DIR>" then
      let name := TrimLeft ⟨line2.data.drop 5⟩
      .entry { emptyEntry with Time := t, Kind := .EntryTypeFolder, Name := name }
    else
      let space := Index line2 " "
      if space = -1 then .unsupported
      else
        match slice line2 0 space, slice line2 space line2.data.length with
        | some digits, some line3 =>
          match ParseUint digits with
          | none => .unsupported
          | some size =>
            let name := TrimLeft line3
            .entry { emptyEntry with Time := t, Size := size, Kind := .EntryTypeFile, Name := name }
        | _, _ => .panic "slice bounds out of range"

/-- The loop of `parseListLine` over the decoders: the result of the first one
that does not return `errUnsupportedListLine`. -/
def firstSupported : List (String → Parsed) → String → Parsed
  | [], _ => .unsupported
  | f :: rest, line =>
    match f line with
    | .unsupported => firstSupported rest line
    | r => r

/-- The variable `listLineParsers`. -/
def listLineParsers (lib : EntryLib) : List (String → Parsed) :=
  [parseRFC3659ListLine lib, parseLsListLine lib, parseDirListLine lib]

/-- The function `parseListLine`. -/
def parseListLine (lib : EntryLib) (line : String) : Parsed :=
  firstSupported (listLineParsers lib) line

/-- The loop of `List` over the lines the scanner reads from the data
connection: a decoded entry is kept, a line with an error is skipped, a panic
ends the loop and the call. -/
def scanEntries (lib : EntryLib) : List String → List Entry → Res (List Entry)
  | [], entries => .ok entries
  | line :: rest, entries =>
    match parseListLine lib line with
    | .entry e => scanEntries lib rest (entries ++ [e])
    | .panic why => .panic why
    | _ => scanEntries lib rest entries

/-- The method `List`; `lines` are the lines the scanner reads and `scanErr` is
what `scanner.Err()` returns.  The deferred `Close` of the stream runs on every
way out. -/
def ServerConn.List (c : ServerConn) (lib : EntryLib) (path : String) (lines : List String)
    (scanErr : Option GoError) : Res (List Entry) × ServerConn :=
  match cmdDataConnFrom c 0 ("LIST " ++ path) with
  | (.err e, c1) => (.err e, c1)
  | (.panic why, c1) => (.panic why, c1)
  | (.ok _, c1) =>
    let c2 := (responseClose c1 none).2
    match scanEntries lib lines [] with
    | .panic why => (.panic why, c2)
    | .err e => (.err e, c2)
    | .ok entries =>
      match scanErr with
      | some e => (.err e, c2)
      | none => (.ok entries, c2)

/-! ## The TLS configuration -/

/-- What `generateTLSConfig` reads: `ReadFile` is `ioutil.ReadFile`, and
`certsOfPEM` gives the certificates that `AppendCertsFromPEM` finds in a text
and adds to the pool. -/
structure CertStore where
  ReadFile : String → Except GoError String
  certsOfPEM : String → List String

/-- The function `generateTLSConfig`: the configuration it returns and its
error.  `rootCAs` is the local pool of the function. -/
def generateTLSConfig (store : CertStore) (certfile : String) : TLSConfig × Option GoError :=
  let tlsConfig : TLSConfig := { InsecureSkipVerify := true, RootCAs := none }
  match store.ReadFile certfile with
  | .error err => (tlsConfig, some err)
  | .ok certficate =>
    let rootCAs : List String := [] ++ store.certsOfPEM certficate
    if rootCAs = [] then
      (tlsConfig, some (.text "ERROR: Fehler beim parsen des Serverzertifikats.\n"))
    else (tlsConfig, none)

/-! ## Helpers of the statements -/

/-- The task as `MultipleTransfer` puts it on the queue. -/
def asWork (task : TransferTask) : TransferTask := { task with finished := false }

/-- Number of stop tokens on a task channel. -/
def stopTokens (ch : Chan TransferTask) : Nat := ch.buf.countP (fun t => t.finished)

/-- An open session that has done nothing yet and is going to receive the given
replies; every write and every dial succeeds. -/
def freshSession (replies : List Incoming) : ServerConn :=
  { incoming := replies, writes := [], closed := false, log := [], dials := [],
    tlsConfig := some { InsecureSkipVerify := true, RootCAs := none },
    tlsSecuredControlConnection := false, tlsSecuredDataConnection := false,
    hostname := "localhost", hostcontrolport := "21", username := "", password := "",
    certfilename := "", timeout := 0, features := [] }

/-- A world without worker interference in which a transfer fails exactly when
its remote path is empty, with the local path as the message. -/
def plainWorld : World :=
  { parallelStorTask := fun t => if t.remotepath = "" then some (.text t.localpath) else none
    parallelRetrTask := fun t => if t.remotepath = "" then some (.text t.localpath) else none
    taken := fun _ => false
    arrivals := fun own => own }

/-- The outcome is a failure whose message is a beginning of the text "Go routine
reset." or begins with it. -/
def resetLike (r : Option GoError) : Bool :=
  match r with
  | none => false
  | some e => HasPrefix "Go routine reset." e.Error || HasPrefix e.Error "Go routine reset."

/-- The messages of the failures among the outcomes, in their order. -/
def failures (chan : List (Option GoError)) : List String :=
  chan.filterMap (fun r => r.map GoError.Error)

/-- Every message on a line of its own, each after a newline. -/
def lineBlock : List String → String
  | [] => ""
  | m :: rest => "\n" ++ m ++ lineBlock rest

/-- The text is a decimal numeral: one or more digits. -/
def isDecimal (s : String) : Prop := s.data ≠ [] ∧ s.data.all isDigit = true

/-- The number a decimal numeral stands for. -/
def decimalValue (s : String) : Nat :=
  Nat.ofDigits 10 (s.data.reverse.map (fun ch => ch.toNat - '0'.toNat))

/-- The command lines among the events. -/
def commandsOf (events : List Event) : List String :=
  events.filterMap (fun ev => match ev with
    | .sent line => some line
    | _ => none)

/-- The command lines the session sent between the two states. -/
def sentSince (before after : ServerConn) : List String :=
  commandsOf (after.log.drop before.log.length)

/-- The session after it sent the command line and read one reply, with the
replies `rest` still to come. -/
def afterExchange (c : ServerConn) (line : String) (expected : Int) (rest : List Incoming) :
    ServerConn :=
  { c with incoming := rest, log := c.log ++ [.sent line, .read expected] }

/-- The last step of `AuthTLS`, lines 140 to 146: PROT P, then the data-secured
flag. -/
def protStep (c : ServerConn) : Option GoError × ServerConn :=
  match cmd c StatusCommandOK "PROT P" with
  | ((_, _, some e), c4) => (some (.text ("Error while PBSZ 0 command. " ++ e.Error)), c4)
  | ((_, _, none), c4) => (none, { c4 with tlsSecuredDataConnection := true })

/-- The steps of `AuthTLS` that secure the data connection, lines 134 to 146:
PBSZ 0, then PROT P. -/
def pbszStep (c : ServerConn) : Option GoError × ServerConn :=
  match cmd c StatusCommandOK "PBSZ 0" with
  | ((_, _, some e), c3) => (some (.text ("Error while PBSZ 0 command. " ++ e.Error)), c3)
  | ((_, _, none), c3) => protStep c3

/-- The session after AUTH TLS was accepted: the control connection is wrapped
in TLS and the control-secured flag is set. -/
def wrapControl (c : ServerConn) : ServerConn :=
  { c with log := c.log ++ [.tlsClient], tlsSecuredControlConnection := true }

/-- What `AuthTLS` does on the wire when all goes well: AUTH TLS, the TLS
wrapping of the control connection, PBSZ 0, PROT P, each command followed by
the read of its reply. -/
def tlsHandshakeLog : List Event :=
  [.sent "AUTH TLS", .read StatusAuthTLS, .tlsClient, .sent "PBSZ 0", .read StatusCommandOK,
    .sent "PROT P", .read StatusCommandOK]

/-- The name and the description of one indented line of a FEAT reply: the text
up to the first space of the trimmed line, and the rest or the empty string. -/
def featEntry (line : String) : String × String :=
  let elements := splitAtSpace (TrimSpace line)
  (elements.headD "", if elements.length = 2 then elements.getD 1 "" else "")

/-- The entries of the indented lines of a FEAT reply, in the order of the
lines. -/
def parsedFeatures (message : String) : List (String × String) :=
  ((Split message '\n').filter (fun line => HasPrefix line " ")).map featEntry

/-- A library for the statements: every time parses to 0, `SetSize` stores the
number it reads and `SetTime` accepts every time. -/
def plainLib : EntryLib :=
  { timeParse := fun _ _ => .ok 0
    SetSize := fun e s =>
      match ParseUint s with
      | some n => ({ e with Size := n }, none)
      | none => (e, some (.text "invalid size"))
    SetTime := fun e _ => (e, none) }

/-- A certificate store for the statements: the file "server.pem" holds one
certificate, no other file can be read. -/
def plainStore : CertStore :=
  { ReadFile := fun name =>
      if name = "server.pem" then .ok "-----BEGIN CERTIFICATE-----" else .error (.text "no such file")
    certsOfPEM := fun text => if text = "-----BEGIN CERTIFICATE-----" then ["server"] else [] }

/-- The reply of a server to PWD in the root directory. -/
def pwdReply : Incoming := .reply 257 "\"/\" is the current directory"

/-! # Theorems -/

/-! ## Lemmas on the set-up of a parallel transfer -/

theorem clampParallel_nonneg (len : Nat) (nrParallel : Int) :
    0 ≤ clampParallel len nrParallel := by
  unfold clampParallel
  split_ifs with h
  · exact Int.ofNat_nonneg len
  · push_neg at h
    exact h.2

theorem clampParallel_le (len : Nat) (nrParallel : Int) :
    clampParallel len nrParallel ≤ (len : Int) := by
  unfold clampParallel
  split_ifs with h
  · exact le_refl _
  · push_neg at h
    exact h.1

theorem enqueueTasks_fits (tasks : List TransferTask) :
    ∀ ch : Chan TransferTask, ch.buf.length + tasks.length ≤ ch.cap →
      enqueueTasks tasks ch = some { ch with buf := ch.buf ++ tasks.map asWork } := by
  induction tasks with
  | nil => intro ch _; simp [enqueueTasks]
  | cons t rest ih =>
    intro ch h
    have hlt : ch.buf.length < ch.cap := by simp at h; omega
    simp only [enqueueTasks, Chan.send, hlt, if_true]
    rw [ih]
    · simp [asWork]
    · simp at h ⊢; omega

theorem enqueueStops_fits (n : Nat) :
    ∀ ch : Chan TransferTask, ch.buf.length + n ≤ ch.cap →
      enqueueStops n ch = some { ch with buf := ch.buf ++ List.replicate n stopToken } := by
  induction n with
  | zero => intro ch _; simp [enqueueStops]
  | succ n ih =>
    intro ch h
    have hlt : ch.buf.length < ch.cap := by omega
    simp only [enqueueStops, Chan.send, hlt, if_true]
    rw [ih]
    · simp [List.replicate_succ]
    · simp; omega

/-- The set-up always gets through, and this is the state it reaches. -/
theorem setup_eq (tasks : List TransferTask) (nrParallel : Int) :
    setup tasks nrParallel = .ok
      { nrParallel := clampParallel tasks.length nrParallel
        taskChannel :=
          { cap := tasks.length + (clampParallel tasks.length nrParallel).toNat
            buf := tasks.map asWork ++
              List.replicate (clampParallel tasks.length nrParallel).toNat stopToken }
        returnChannel := { cap := tasks.length, buf := [] }
        workers := (clampParallel tasks.length nrParallel - 1).toNat } := by
  have h0 := clampParallel_nonneg tasks.length nrParallel
  have hcap : ((tasks.length : Int) + clampParallel tasks.length nrParallel).toNat
      = tasks.length + (clampParallel tasks.length nrParallel).toNat := by omega
  have hsum : (0 : Int) ≤ (tasks.length : Int) + clampParallel tasks.length nrParallel := by
    omega
  simp only [setup, makeChan, hsum, if_true, Int.ofNat_nonneg, hcap, Int.toNat_ofNat]
  rw [enqueueTasks_fits tasks _ (by simp)]
  simp only [List.nil_append]
  rw [enqueueStops_fits _ _ (by simp)]

/-! ## Claims on the set-up of a parallel transfer -/

theorem countP_finished_work (tasks : List TransferTask) :
    (tasks.map asWork).countP (fun t => t.finished) = 0 := by
  induction tasks with
  | nil => rfl
  | cons t rest ih => simp [asWork, List.countP_cons]

theorem countP_finished_stops (n : Nat) :
    (List.replicate n stopToken).countP (fun t => t.finished) = n := by
  induction n with
  | zero => rfl
  | succ n ih =>
    rw [List.replicate_succ, List.countP_cons, ih]
    simp [stopToken]

/-- C1: the effective concurrency is `len(tasks)` when `nrParallel` is negative
or above `len(tasks)` and `nrParallel` otherwise; for such an `nrParallel` the
set-up (task queue, stop tokens, started worker sessions) is the one of
`nrParallel = len(tasks)`: `len(tasks)` stop tokens and `len(tasks) - 1` worker
sessions, none when `len(tasks) <= 1`. -/
theorem C1_out_of_range_concurrency_is_len (tasks : List TransferTask) (nrParallel : Int)
    (h : nrParallel < 0 ∨ (tasks.length : Int) < nrParallel) :
    (∀ m : Int, clampParallel tasks.length m
        = if m < 0 ∨ (tasks.length : Int) < m then (tasks.length : Int) else m)
    ∧ (∀ m : Int, ∃ s, setup tasks m = .ok s
        ∧ s.nrParallel = clampParallel tasks.length m
        ∧ (stopTokens s.taskChannel : Int) = clampParallel tasks.length m
        ∧ (s.workers : Int) = max 0 (clampParallel tasks.length m - 1))
    ∧ clampParallel tasks.length nrParallel = (tasks.length : Int)
    ∧ setup tasks nrParallel = setup tasks (tasks.length : Int)
    ∧ ∃ s, setup tasks nrParallel = .ok s
        ∧ s.nrParallel = (tasks.length : Int)
        ∧ s.taskChannel.buf = tasks.map asWork ++ List.replicate tasks.length stopToken
        ∧ stopTokens s.taskChannel = tasks.length
        ∧ s.workers = tasks.length - 1
        ∧ (tasks.length ≤ 1 → s.workers = 0) := by
  have hm : ∀ m : Int, clampParallel tasks.length m
      = if m < 0 ∨ (tasks.length : Int) < m then (tasks.length : Int) else m := by
    intro m
    unfold clampParallel
    by_cases h1 : m < 0 <;> by_cases h2 : (tasks.length : Int) < m <;> simp [h1, h2]
  have hc : clampParallel tasks.length nrParallel = (tasks.length : Int) := by
    rw [hm, if_pos h]
  have hl : clampParallel tasks.length (tasks.length : Int) = (tasks.length : Int) := by
    rw [hm]; simp
  refine ⟨hm, ?_, hc, ?_, ?_⟩
  · intro m
    have h0 := clampParallel_nonneg tasks.length m
    refine ⟨_, setup_eq tasks m, rfl, ?_, ?_⟩
    · simp only [stopTokens, List.countP_append, countP_finished_work, countP_finished_stops,
        zero_add]
      omega
    · simp only
      omega
  · rw [setup_eq, setup_eq, hc, hl]
  · refine ⟨_, setup_eq tasks nrParallel, ?_⟩
    simp only [hc, Int.toNat_ofNat, stopTokens, List.countP_append, countP_finished_work,
      countP_finished_stops, true_and, zero_add]
    omega

/-- C1 at two tasks and the request -1. -/
theorem C1_out_of_range_concurrency_is_len_witness :
    ((-1 : Int) < 0 ∨
        (([⟨.Store, "a", "b", false⟩, ⟨.Retrieve, "c", "d", true⟩] :
          List TransferTask).length : Int) < -1)
    ∧ setup [⟨.Store, "a", "b", false⟩, ⟨.Retrieve, "c", "d", true⟩] (-1)
        = setup [⟨.Store, "a", "b", false⟩, ⟨.Retrieve, "c", "d", true⟩] (2 : Nat) :=
  ⟨by decide,
    (C1_out_of_range_concurrency_is_len
      [⟨.Store, "a", "b", false⟩, ⟨.Retrieve, "c", "d", true⟩] (-1) (by decide)).2.2.2.1⟩

/-! ## Claims on the loops of a parallel transfer -/

theorem clampParallel_zero (nrParallel : Int) : clampParallel 0 nrParallel = 0 := by
  unfold clampParallel
  split_ifs with h
  · rfl
  · push_neg at h
    have h1 := h.1
    have h2 := h.2
    simp only [Nat.cast_zero] at h1
    omega

/-- With no task, whatever concurrency is asked for, the calling thread waits
for a stop token that was never put on the task channel. -/
theorem MultipleTransfer_no_tasks (c c1 : ServerConn) (w : World) (nrParallel : Int)
    (dir : String) (h : CurrentDir c = (.ok dir, c1)) :
    MultipleTransfer c w [] nrParallel = (.blocked "receive on task channel", c1) := by
  simp [MultipleTransfer, h, setup_eq, clampParallel_zero, asWork, mainLoop]

/-- C2: with an empty task list and a successful PWD the concurrency becomes 0,
and the call does not return: no stop token is on the task channel, so the
first receive of the dequeue loop waits for ever. -/
theorem C2_no_tasks_never_returns (nrParallel : Int) :
    (CurrentDir (freshSession [pwdReply])).1 = .ok "/"
    ∧ clampParallel ([] : List TransferTask).length nrParallel = 0
    ∧ (MultipleTransfer (freshSession [pwdReply]) plainWorld [] nrParallel).1
        = .blocked "receive on task channel" := by
  refine ⟨by decide, clampParallel_zero nrParallel, ?_⟩
  rw [MultipleTransfer_no_tasks _ (CurrentDir (freshSession [pwdReply])).2 _ _ "/" (by decide)]

theorem drainFrom_reads_all (len : Nat) (e : Int) :
    ∀ (chan : List (Option GoError)) (n : Nat) (g : Int) (msg : String),
      n ≤ len → len - n ≤ chan.length →
      g + ((chan.take (len - n)).countP resetLike : Nat) < e →
      ∃ d, drainFrom len e chan n g msg = some d ∧ d.read = len := by
  intro chan
  induction chan with
  | nil =>
    intro n g msg hn hlen _
    have : ¬ n < len := by simp at hlen; omega
    exact ⟨⟨n, msg⟩, by simp [drainFrom, this], by simp; omega⟩
  | cons r rest ih =>
    intro n g msg hn hlen hfew
    by_cases hlt : n < len
    · obtain ⟨k, hk⟩ : ∃ k, len - n = k + 1 := ⟨len - n - 1, by omega⟩
      have hk1 : len - (n + 1) = k := by omega
      rw [hk, List.take_succ_cons, List.countP_cons] at hfew
      have hg : g < e := by omega
      have hrest : len - (n + 1) ≤ rest.length := by simp at hlen; omega
      cases r with
      | none =>
        simp only [drainFrom, hlt, hg, and_self, if_true]
        apply ih (n + 1) g msg (by omega) hrest
        rw [hk1]
        simp [resetLike] at hfew
        exact hfew
      | some err =>
        simp only [drainFrom, hlt, hg, and_self, if_true]
        by_cases hp : HasPrefix "Go routine reset." err.Error = true
        · simp only [hp, if_true]
          apply ih (n + 1) (g + 1) _ (by omega) hrest
          rw [hk1]
          simp [resetLike, hp] at hfew
          omega
        · simp only [hp, if_false]
          apply ih (n + 1) g _ (by omega) hrest
          rw [hk1]
          omega
    · have hcond : ¬ (n < len ∧ g < e) := fun hc => hlt hc.1
      exact ⟨⟨n, msg⟩, by simp [drainFrom, hcond], by simp; omega⟩

/-- C3, as amended: when all `len(tasks)` outcomes arrive and fewer of them than
the effective concurrency are failures whose message is a beginning of the
worker-reset text "Go routine reset." or begins with it, the drain loop reads
exactly `len(tasks)` outcomes. -/
theorem C3_drain_reads_every_outcome (tasks : List TransferTask) (nrParallel : Int)
    (chan : List (Option GoError))
    (harrive : tasks.length ≤ chan.length)
    (hfew : (((chan.take tasks.length).countP resetLike : Nat) : Int)
      < clampParallel tasks.length nrParallel) :
    ∃ d, drain tasks.length (clampParallel tasks.length nrParallel) chan = some d
      ∧ d.read = tasks.length := by
  apply drainFrom_reads_all _ _ chan 0 0 "" (Nat.zero_le _) (by simpa using harrive)
  simpa using hfew

/-- C3 at two tasks on one connection, one of which fails with "disk full". -/
theorem C3_drain_reads_every_outcome_witness :
    ∃ d, drain 2 (clampParallel 2 1) [some (.text "disk full"), none] = some d ∧ d.read = 2 :=
  C3_drain_reads_every_outcome
    [⟨.Store, "a", "b", false⟩, ⟨.Store, "c", "d", false⟩] 1
    [some (.text "disk full"), none] (by decide) (by decide)

/-- C3 as stated fails: with two tasks on one connection, a first failure with
the message "Go routine reset." ends the drain loop after one outcome, while
the second outcome is on the channel. -/
theorem C3_reset_message_stops_drain :
    drain ([⟨.Store, "a", "b", false⟩, ⟨.Store, "c", "d", false⟩] : List TransferTask).length
        (clampParallel 2 1) [some (.text "Go routine reset."), none]
      = some { read := 1, errorMessage := "\nGo routine reset." } := by
  decide

theorem append_line_ne_empty (msg text : String) : msg ++ "\n" ++ text ≠ "" := by
  intro h
  have hl := congrArg String.length h
  simp only [String.length_append] at hl
  have h1 : ("\n" : String).length = 1 := by decide
  have h0 : ("" : String).length = 0 := by decide
  omega

theorem drainFrom_verdict (len : Nat) (e : Int) :
    ∀ (chan : List (Option GoError)) (n : Nat) (g : Int) (msg : String),
      len - n ≤ chan.length → (e ≤ g → msg ≠ "") →
      ∃ d, drainFrom len e chan n g msg = some d
        ∧ (d.errorMessage = "" ↔ msg = "" ∧ ∀ r ∈ chan.take (len - n), r = none) := by
  intro chan
  induction chan with
  | nil =>
    intro n g msg hlen _
    have : ¬ n < len := by simp at hlen; omega
    exact ⟨⟨n, msg⟩, by simp [drainFrom, this], by simp⟩
  | cons r rest ih =>
    intro n g msg hlen hg
    by_cases hc : n < len ∧ g < e
    · obtain ⟨k, hk⟩ : ∃ k, len - n = k + 1 := ⟨len - n - 1, by omega⟩
      have hk1 : len - (n + 1) = k := by omega
      have hrest : len - (n + 1) ≤ rest.length := by simp at hlen; omega
      cases r with
      | none =>
        obtain ⟨d, hd, hiff⟩ := ih (n + 1) g msg hrest hg
        refine ⟨d, by simp [drainFrom, hc, hd], ?_⟩
        rw [hiff, hk, hk1]
        simp
      | some err =>
        have hne := append_line_ne_empty msg err.Error
        by_cases hp : HasPrefix "Go routine reset." err.Error = true
        · obtain ⟨d, hd, hiff⟩ := ih (n + 1) (g + 1) (msg ++ "\n" ++ err.Error) hrest
            (fun _ => hne)
          refine ⟨d, by simp [drainFrom, hc, hp, hd], ?_⟩
          rw [hiff, hk]
          simp [hne]
        · obtain ⟨d, hd, hiff⟩ := ih (n + 1) g (msg ++ "\n" ++ err.Error) hrest
            (fun _ => hne)
          refine ⟨d, by simp [drainFrom, hc, hp, hd], ?_⟩
          rw [hiff, hk]
          simp [hne]
    · refine ⟨⟨n, msg⟩, by simp [drainFrom, hc], ?_⟩
      by_cases hlt : n < len
      · have hge : e ≤ g := by
          by_contra hcon
          exact hc ⟨hlt, by omega⟩
        have := hg hge
        simp [this]
      · have : len - n = 0 := by omega
        simp [this]

/-- For a concurrency of at least 1 the drain loop and the final test give no
error exactly when each of the `len` outcomes is nil. -/
theorem drain_verdict (len : Nat) (e : Int) (chan : List (Option GoError))
    (he : 1 ≤ e) (harrive : len ≤ chan.length) :
    ∃ d, drain len e chan = some d
      ∧ (aggregate d.errorMessage = none ↔ ∀ r ∈ chan.take len, r = none) := by
  obtain ⟨d, hd, hiff⟩ := drainFrom_verdict len e chan 0 0 "" (by simpa using harrive)
    (fun h => absurd h (by omega))
  refine ⟨d, hd, ?_⟩
  unfold aggregate
  by_cases hm : d.errorMessage = ""
  · simpa [hm] using hiff.mp hm
  · simp only [hm, if_false]
    constructor
    · intro h; exact absurd h (by simp)
    · intro h
      exact absurd (hiff.mpr ⟨rfl, by simpa using h⟩) hm

/-- C4 at one failing task and the requested concurrency 0: the calling thread
runs the task, puts its failure on the result channel and then waits for ever
for a stop token; the drain loop and the final test, were they reached, would
read no outcome and report no error. -/
theorem C4_zero_concurrency_never_reports :
    (CurrentDir (freshSession [pwdReply])).1 = .ok "/"
    ∧ clampParallel ([⟨.Store, "disk full", "", false⟩] : List TransferTask).length 0 = 0
    ∧ plainWorld.parallelStorTask ⟨.Store, "disk full", "", false⟩ = some (.text "disk full")
    ∧ (MultipleTransfer (freshSession [pwdReply]) plainWorld
        [⟨.Store, "disk full", "", false⟩] 0).1 = .blocked "receive on task channel"
    ∧ (drain 1 0 [some (.text "disk full")]).map (fun d => aggregate d.errorMessage)
        = some none := by
  decide

theorem intercalate_go :
    ∀ (rest : List String) (acc : String),
      String.intercalate.go acc "\n" rest = acc ++ lineBlock rest := by
  intro rest
  induction rest with
  | nil => intro acc; simp [String.intercalate.go, lineBlock]
  | cons m more ih =>
    intro acc
    rw [String.intercalate.go, ih, lineBlock]
    simp only [String.append_assoc]

theorem lineBlock_eq_intercalate (ms : List String) (h : ms ≠ []) :
    lineBlock ms = "\n" ++ "\n".intercalate ms := by
  cases ms with
  | nil => exact absurd rfl h
  | cons m more =>
    rw [String.intercalate, intercalate_go, lineBlock]
    simp only [String.append_assoc]

theorem drainFrom_message (len : Nat) (e : Int) :
    ∀ (chan : List (Option GoError)) (n : Nat) (g : Int) (msg : String) (d : Drained),
      drainFrom len e chan n g msg = some d →
      n ≤ d.read ∧ d.errorMessage = msg ++ lineBlock (failures (chan.take (d.read - n))) := by
  intro chan
  induction chan with
  | nil =>
    intro n g msg d h
    by_cases hc : n < len ∧ g < e
    · simp [drainFrom, hc] at h
    · simp only [drainFrom, hc, if_false, Option.some.injEq] at h
      subst h
      simp [failures, lineBlock]
  | cons r rest ih =>
    intro n g msg d h
    by_cases hc : n < len ∧ g < e
    · cases r with
      | none =>
        simp only [drainFrom, hc, and_self, if_true] at h
        obtain ⟨hle, hmsg⟩ := ih (n + 1) g msg d h
        obtain ⟨k, hk⟩ : ∃ k, d.read - n = k + 1 := ⟨d.read - n - 1, by omega⟩
        have hk1 : d.read - (n + 1) = k := by omega
        refine ⟨by omega, ?_⟩
        rw [hmsg, hk, hk1]
        simp [failures]
      | some err =>
        by_cases hp : HasPrefix "Go routine reset." err.Error = true
        · simp only [drainFrom, hc, and_self, if_true, hp] at h
          obtain ⟨hle, hmsg⟩ := ih (n + 1) (g + 1) _ d h
          obtain ⟨k, hk⟩ : ∃ k, d.read - n = k + 1 := ⟨d.read - n - 1, by omega⟩
          have hk1 : d.read - (n + 1) = k := by omega
          refine ⟨by omega, ?_⟩
          rw [hmsg, hk, hk1]
          simp [failures, lineBlock, String.append_assoc]
        · simp only [drainFrom, hc, and_self, if_true, hp] at h
          obtain ⟨hle, hmsg⟩ := ih (n + 1) g _ d h
          obtain ⟨k, hk⟩ : ∃ k, d.read - n = k + 1 := ⟨d.read - n - 1, by omega⟩
          have hk1 : d.read - (n + 1) = k := by omega
          refine ⟨by omega, ?_⟩
          rw [hmsg, hk, hk1]
          simp [failures, lineBlock, String.append_assoc]
    · simp only [drainFrom, hc, if_false, Option.some.injEq] at h
      subst h
      simp [failures, lineBlock]

theorem drainFrom_total (len : Nat) (e : Int) :
    ∀ (chan : List (Option GoError)) (n : Nat) (g : Int) (msg : String),
      n ≤ len → len - n ≤ chan.length →
      ∃ d, drainFrom len e chan n g msg = some d ∧ d.read ≤ len := by
  intro chan
  induction chan with
  | nil =>
    intro n g msg hn hlen
    have : ¬ n < len := by simp at hlen; omega
    exact ⟨⟨n, msg⟩, by simp [drainFrom, this], hn⟩
  | cons r rest ih =>
    intro n g msg hn hlen
    by_cases hc : n < len ∧ g < e
    · have hrest : len - (n + 1) ≤ rest.length := by simp at hlen; omega
      cases r with
      | none =>
        obtain ⟨d, hd, hle⟩ := ih (n + 1) g msg (by omega) hrest
        exact ⟨d, by simp [drainFrom, hc, hd], hle⟩
      | some err =>
        by_cases hp : HasPrefix "Go routine reset." err.Error = true
        · obtain ⟨d, hd, hle⟩ := ih (n + 1) (g + 1) (msg ++ "\n" ++ err.Error) (by omega) hrest
          exact ⟨d, by simp [drainFrom, hc, hp, hd], hle⟩
        · obtain ⟨d, hd, hle⟩ := ih (n + 1) g (msg ++ "\n" ++ err.Error) (by omega) hrest
          exact ⟨d, by simp [drainFrom, hc, hp, hd], hle⟩
    · exact ⟨⟨n, msg⟩, by simp [drainFrom, hc], hn⟩

/-- C5, as amended: when `len(tasks)` outcomes arrive, the drain loop ends (having
read all of them when fewer than the effective concurrency look like worker
resets), and with m1, ..., mk the messages of the failures among the outcomes
it read, in this order, the call returns no error for k = 0 and for k >= 1 an
error whose message is a newline followed by the newline-joined list m1, ...,
mk: every failure once per occurrence, each on a line of its own after an
empty first line, nothing after the last. -/
theorem C5_error_lists_each_failure (tasks : List TransferTask) (nrParallel : Int)
    (chan : List (Option GoError)) (harrive : tasks.length ≤ chan.length) :
    ∃ d, drain tasks.length (clampParallel tasks.length nrParallel) chan = some d
      ∧ d.read ≤ tasks.length
      ∧ ((((chan.take tasks.length).countP resetLike : Nat) : Int)
          < clampParallel tasks.length nrParallel → d.read = tasks.length)
      ∧ aggregate d.errorMessage =
          if failures (chan.take d.read) = [] then none
          else some (.text ("\n" ++ "\n".intercalate (failures (chan.take d.read)))) := by
  obtain ⟨d, hd, hle⟩ := drainFrom_total tasks.length (clampParallel tasks.length nrParallel)
    chan 0 0 "" (Nat.zero_le _) (by simpa using harrive)
  refine ⟨d, hd, hle, ?_, ?_⟩
  · intro hfew
    obtain ⟨d1, hd1, hread⟩ := drainFrom_reads_all tasks.length
      (clampParallel tasks.length nrParallel) chan 0 0 "" (Nat.zero_le _)
      (by simpa using harrive) (by simpa using hfew)
    have : d1 = d := by
      have h := hd1.symm.trans hd
      simpa using h
    rw [← this]
    exact hread
  obtain ⟨_, hmsg⟩ := drainFrom_message _ _ chan 0 0 "" d hd
  rw [Nat.sub_zero, String.empty_append] at hmsg
  by_cases hk : failures (chan.take d.read) = []
  · rw [hk] at hmsg
    simp [aggregate, hk, hmsg, lineBlock]
  · rw [lineBlock_eq_intercalate _ hk] at hmsg
    have hne : "\n" ++ "\n".intercalate (failures (chan.take d.read)) ≠ "" := by
      have h := append_line_ne_empty "" ("\n".intercalate (failures (chan.take d.read)))
      rwa [String.empty_append] at h
    simp [aggregate, hk, hne, hmsg]

/-- C5 at three tasks on two connections, two of which fail with the same
message. -/
theorem C5_error_lists_each_failure_witness :
    ∃ d, drain 3 (clampParallel 3 2) [some (.text "disk full"), none, some (.text "disk full")]
        = some d
      ∧ d.read ≤ 3
      ∧ ((((([some (.text "disk full"), none, some (.text "disk full")] :
            List (Option GoError)).take 3).countP resetLike : Nat) : Int)
          < clampParallel 3 2 → d.read = 3)
      ∧ aggregate d.errorMessage =
          if failures
              ([some (.text "disk full"), none, some (.text "disk full")].take d.read) = []
          then none
          else some (.text ("\n" ++ "\n".intercalate (failures
            ([some (.text "disk full"), none, some (.text "disk full")].take d.read)))) :=
  C5_error_lists_each_failure
    [⟨.Store, "a", "b", false⟩, ⟨.Store, "c", "d", false⟩, ⟨.Store, "e", "f", false⟩] 2
    [some (.text "disk full"), none, some (.text "disk full")] (by decide)

/-- C5 as stated fails: one task that fails with "disk full" makes the call
return the message "\ndisk full", which has a newline before the first
message and so is not the newline-joined list of the messages. -/
theorem C5_message_starts_with_newline :
    (MultipleTransfer (freshSession [pwdReply]) plainWorld
        [⟨.Store, "disk full", "", false⟩] 1).1 = .returned (some (.text "\ndisk full"))
    ∧ "\ndisk full" ≠ "\n".intercalate ["disk full"] := by
  decide

/-! ## Claims on the passive-mode parsers -/

theorem indexChars_single (c : Char) :
    ∀ (pre rest : List Char), c ∉ pre → indexChars [c] (pre ++ c :: rest) = pre.length := by
  intro pre
  induction pre with
  | nil => intro rest _; simp [indexChars, List.isPrefixOf]
  | cons x pre ih =>
    intro rest h
    have hx : ¬ c = x := fun hcx => h (by simp [hcx])
    have hpre : c ∉ pre := fun hin => h (by simp [hin])
    have hr := ih rest hpre
    have hne : ¬ ((pre.length : Int) = -1) := by omega
    rw [List.cons_append, indexChars, hr]
    simp [List.isPrefixOf, hx, hne]

theorem lastIndexChars_absent (c : Char) :
    ∀ post : List Char, c ∉ post → lastIndexChars [c] post = -1 := by
  intro post
  induction post with
  | nil => intro _; simp [lastIndexChars, List.isPrefixOf]
  | cons x post ih =>
    intro h
    have hx : ¬ c = x := fun hcx => h (by simp [hcx])
    have hpost : c ∉ post := fun hin => h (by simp [hin])
    simp [lastIndexChars, List.isPrefixOf, ih hpost, hx]

theorem lastIndexChars_single (c : Char) :
    ∀ (xs post : List Char), c ∉ post → lastIndexChars [c] (xs ++ c :: post) = xs.length := by
  intro xs
  induction xs with
  | nil =>
    intro post h
    simp [lastIndexChars, List.isPrefixOf, lastIndexChars_absent c post h]
  | cons x xs ih =>
    intro post h
    have hr := ih post h
    have hne : ¬ ((xs.length : Int) = -1) := by omega
    rw [List.cons_append, lastIndexChars, hr]
    simp [hne]

theorem splitChars_ne_nil (sep : Char) : ∀ l : List Char, splitChars sep l ≠ [] := by
  intro l
  induction l with
  | nil => simp [splitChars]
  | cons x l ih =>
    simp only [splitChars]
    split_ifs
    · simp
    · split <;> simp

theorem splitChars_last (sep : Char) :
    ∀ a : List Char, sep ∉ a → splitChars sep a = [a] := by
  intro a
  induction a with
  | nil => intro _; simp [splitChars]
  | cons x a ih =>
    intro h
    have hx : ¬ x = sep := fun hxs => h (by simp [hxs])
    have ha : sep ∉ a := fun hin => h (by simp [hin])
    simp [splitChars, hx, ih ha]

theorem splitChars_field (sep : Char) :
    ∀ (a rest : List Char), sep ∉ a →
      splitChars sep (a ++ sep :: rest) = a :: splitChars sep rest := by
  intro a
  induction a with
  | nil => intro rest _; simp [splitChars]
  | cons x a ih =>
    intro rest h
    have hx : ¬ x = sep := fun hxs => h (by simp [hxs])
    have ha : sep ∉ a := fun hin => h (by simp [hin])
    simp [splitChars, hx, ih rest ha]

theorem parseDigits_value :
    ∀ (ds : List Char) (n : Nat), ds.all isDigit = true →
      n * 10 ^ ds.length + Nat.ofDigits 10 (ds.reverse.map (fun ch => ch.toNat - '0'.toNat))
        < 2 ^ 64 →
      parseDigits ds n = .ok
        (n * 10 ^ ds.length + Nat.ofDigits 10 (ds.reverse.map (fun ch => ch.toNat - '0'.toNat))) := by
  intro ds
  induction ds with
  | nil => intro n _ _; simp [parseDigits]
  | cons ch rest ih =>
    intro n hall hlt
    simp only [List.all_cons, Bool.and_eq_true] at hall
    have hval : n * 10 ^ (ch :: rest).length
          + Nat.ofDigits 10 ((ch :: rest).reverse.map (fun ch => ch.toNat - '0'.toNat))
        = (n * 10 + (ch.toNat - '0'.toNat)) * 10 ^ rest.length
          + Nat.ofDigits 10 (rest.reverse.map (fun ch => ch.toNat - '0'.toNat)) := by
      simp only [List.reverse_cons, List.map_append, List.map_cons, List.map_nil,
        Nat.ofDigits_append, Nat.ofDigits_singleton, List.length_map, List.length_reverse,
        List.length_cons]
      ring
    rw [hval] at hlt ⊢
    have hpos : 0 < 10 ^ rest.length := Nat.pow_pos (by norm_num)
    have hsmall : n * 10 + (ch.toNat - '0'.toNat) < 2 ^ 64 := by
      have : n * 10 + (ch.toNat - '0'.toNat)
          ≤ (n * 10 + (ch.toNat - '0'.toNat)) * 10 ^ rest.length :=
        Nat.le_mul_of_pos_right _ hpos
      omega
    have hno : ¬ (2 ^ 64 ≤ n * 10 + (ch.toNat - '0'.toNat)) := by omega
    simp only [parseDigits, hall.1, not_true_eq_false, if_false, hno]
    exact ih _ hall.2 hlt

theorem Atoi_decimal (s : String) (h : isDecimal s) (hlt : decimalValue s < 2 ^ 63) :
    Atoi s = .ok (decimalValue s : Int) := by
  obtain ⟨hne, hall⟩ := h
  have hhead : ¬ (s.data.head? = some '-' ∨ s.data.head? = some '+') := by
    cases hs : s.data with
    | nil => exact absurd hs hne
    | cons ch rest =>
      rw [hs] at hall
      simp only [List.all_cons, Bool.and_eq_true] at hall
      have hd := hall.1
      simp only [List.head?_cons, Option.some.injEq]
      rintro (rfl | rfl) <;> revert hd <;> decide
  have hneg : ¬ (s.data.head? = some '-') := fun hm => hhead (Or.inl hm)
  have hpos : ¬ (s.data.head? = some '+') := fun hm => hhead (Or.inr hm)
  have hv := parseDigits_value s.data 0 hall (by
    simp only [zero_mul, zero_add]
    unfold decimalValue at hlt
    omega)
  simp only [zero_mul, zero_add] at hv
  unfold decimalValue at hlt ⊢
  simp only [Atoi, hneg, hpos, or_self, if_false, hne, decide_False, Bool.false_eq_true]
  rw [hv]
  simp only [hlt, if_true]

theorem digits_no_comma (s : String) (h : isDecimal s) : ',' ∉ s.data := by
  intro hin
  have hd := List.all_eq_true.mp h.2 ',' hin
  revert hd
  decide

theorem slice_middle (a m b : List Char) :
    slice ⟨a ++ m ++ b⟩ (a.length : Int) ((a.length : Int) + m.length) = some ⟨m⟩ := by
  have h1 : (0 : Int) ≤ (a.length : Int) := Int.ofNat_nonneg _
  have h2 : (a.length : Int) ≤ (a.length : Int) + m.length := by omega
  have h3 : (a.length : Int) + m.length ≤ ((a ++ m ++ b).length : Int) := by
    simp only [List.length_append, Nat.cast_add]
    omega
  have h4 : ((a.length : Int) + m.length).toNat - a.length = m.length := by omega
  simp only [slice, h1, h2, h3, and_self, if_true, Int.toNat_ofNat]
  rw [h4]
  simp [List.append_assoc]

theorem wrapInt_small (x : Nat) (h : x < 2 ^ 63) : wrapInt (x : Int) = (x : Int) := by
  unfold wrapInt
  have h1 : (0 : Int) ≤ (x : Int) + 2 ^ 63 := by positivity
  have h2 : (x : Int) + 2 ^ 63 < 2 ^ 64 := by
    have : ((x : Nat) : Int) < 2 ^ 63 := by exact_mod_cast h
    omega
  rw [Int.emod_eq_of_lt h1 h2]
  omega

/-- C6, as amended: when the text between the first "(" and the last ")" of
the reply message is six comma-separated fields of which the fifth and sixth
are decimal numerals p1 and p2 with p1*256 + p2 in the range of int, the
PASV parser returns the port p1*256 + p2 and no error; for the message
"Entering Passive Mode (127,0,0,1,200,13)" it returns 51213. -/
theorem C6_pasv_port (pre post h1 h2 h3 h4 f5 f6 : String)
    (hpre : '(' ∉ pre.data) (hpost : ')' ∉ post.data)
    (hh1 : ',' ∉ h1.data) (hh2 : ',' ∉ h2.data) (hh3 : ',' ∉ h3.data) (hh4 : ',' ∉ h4.data)
    (hf5 : isDecimal f5) (hf6 : isDecimal f6)
    (hrange : decimalValue f5 * 256 + decimalValue f6 < 2 ^ 63) :
    pasvPort (pre ++ "(" ++ h1 ++ "," ++ h2 ++ "," ++ h3 ++ "," ++ h4 ++ "," ++ f5 ++ ","
        ++ f6 ++ ")" ++ post)
      = .ok ((decimalValue f5 * 256 + decimalValue f6 : Nat) : Int)
    ∧ pasvPort "Entering Passive Mode (127,0,0,1,200,13)" = .ok 51213 := by
  refine ⟨?_, by decide⟩
  obtain ⟨inner, hinner⟩ : ∃ inner : List Char, inner =
      h1.data ++ ',' :: (h2.data ++ ',' :: (h3.data ++ ',' :: (h4.data ++ ',' :: (f5.data
        ++ ',' :: f6.data)))) := ⟨_, rfl⟩
  have hline : pre ++ "(" ++ h1 ++ "," ++ h2 ++ "," ++ h3 ++ "," ++ h4 ++ "," ++ f5 ++ ","
      ++ f6 ++ ")" ++ post = ⟨(pre.data ++ ['(']) ++ inner ++ (')' :: post.data)⟩ := by
    apply String.ext
    simp [hinner, String.data_append]
  rw [hline]
  have hstart : Index ⟨(pre.data ++ ['(']) ++ inner ++ (')' :: post.data)⟩ "("
      = (pre.data.length : Int) := by
    have := indexChars_single '(' pre.data (inner ++ ')' :: post.data) hpre
    simpa [Index] using this
  have hstop : LastIndex ⟨(pre.data ++ ['(']) ++ inner ++ (')' :: post.data)⟩ ")"
      = ((pre.data ++ ['(']).length : Int) + inner.length := by
    have := lastIndexChars_single ')' ((pre.data ++ ['(']) ++ inner) post.data hpost
    simp only [LastIndex]
    rw [this]
    simp only [List.length_append, List.length_singleton, Nat.cast_add, Nat.cast_one]
  have hsl : slice ⟨(pre.data ++ ['(']) ++ inner ++ (')' :: post.data)⟩
      ((pre.data.length : Int) + 1) (((pre.data ++ ['(']).length : Int) + inner.length)
      = some ⟨inner⟩ := by
    have := slice_middle (pre.data ++ ['(']) inner (')' :: post.data)
    simpa using this
  have hsplit : Split ⟨inner⟩ ',' = [h1, h2, h3, h4, f5, f6] := by
    simp only [Split, hinner]
    rw [splitChars_field _ _ _ hh1, splitChars_field _ _ _ hh2, splitChars_field _ _ _ hh3,
      splitChars_field _ _ _ hh4, splitChars_field _ _ _ (digits_no_comma f5 hf5),
      splitChars_last _ _ (digits_no_comma f6 hf6)]
    rfl
  have h5 : Atoi f5 = .ok (decimalValue f5 : Int) := Atoi_decimal f5 hf5 (by omega)
  have h6 : Atoi f6 = .ok (decimalValue f6 : Int) := Atoi_decimal f6 hf6 (by omega)
  have hne1 : ¬ ((pre.data.length : Int) = -1) := by omega
  have hne2 : ¬ (((pre.data ++ ['(']).length : Int) + inner.length = -1) := by omega
  have hw := wrapInt_small _ hrange
  simp only [pasvPort, hstart, hstop, hne1, hne2, or_self, if_false, hsl, hsplit]
  simp only [List.get?, h5, h6]
  rw [← hw]
  push_cast
  rfl

/-- C6 at the reply "Entering Passive Mode (127,0,0,1,200,13)." -/
theorem C6_pasv_port_witness :
    pasvPort ("Entering Passive Mode " ++ "(" ++ "127" ++ "," ++ "0" ++ "," ++ "0" ++ ","
        ++ "1" ++ "," ++ "200" ++ "," ++ "13" ++ ")" ++ ".")
      = .ok ((decimalValue "200" * 256 + decimalValue "13" : Nat) : Int)
    ∧ decimalValue "200" * 256 + decimalValue "13" = 51213 :=
  ⟨(C6_pasv_port "Entering Passive Mode " "." "127" "0" "0" "1" "200" "13"
      (by decide) (by decide) (by decide) (by decide) (by decide) (by decide)
      ⟨by decide, by decide⟩ ⟨by decide, by decide⟩ (by decide)).1,
    by decide⟩

/-- C6 as stated fails: a reply that holds the tuple (127,0,0,1,200,13) and
a second pair of parentheses after it or before it yields an error or another
port, and a tuple whose last number does not fit an int yields an error. -/
theorem C6_other_parentheses_or_large_numbers :
    pasvPort "Entering Passive Mode (127,0,0,1,200,13) (ok)"
        = .err (numError "13) (ok" .syntaxFault)
    ∧ pasvPort "(a,b) (127,0,0,1,200,13)" = .ok 456
    ∧ pasvPort "Entering Passive Mode (127,0,0,1,200,99999999999999999999)"
        = .err (numError "99999999999999999999" .rangeFault) := by
  decide

/-! ## Claims on StorFrom and Quit -/

/-- When the copy fails, `StorFrom` returns the copy error right after closing
the data connection: the state it leaves is the one after the close, no reply
was read from the control connection. -/
theorem StorFrom_failed_copy (c c1 : ServerConn) (path : String) (e : GoError) (offset : Nat)
    (conn : DataConn) (h : cmdDataConnFrom c offset ("STOR " ++ path) = (.ok conn, c1)) :
    StorFrom c path (some e) offset
      = (.err e, dataClose { c1 with log := c1.log ++ [.dataCopied] }) := by
  simp [StorFrom, h]

/-- C7 at a copy that fails with "broken pipe" after PASV and STOR were accepted:
`StorFrom` closes the data connection and returns the copy error without
reading the confirmation; the reply 226 stays unread on the control connection.
The sibling `Close` of a retrieved stream does read it after closing. -/
theorem C7_failed_copy_skips_confirmation :
    StorFrom
        (freshSession [.reply 227 "Entering Passive Mode (127,0,0,1,200,13)",
          .reply 150 "Ok to send data", .reply 226 "Transfer complete"])
        "f.txt" (some (.text "broken pipe")) 0
      = (.err (.text "broken pipe"),
          { freshSession [.reply 226 "Transfer complete"] with
            log := [.sent "PASV", .read 227, .dialed 51213, .sent "STOR f.txt", .read (-1),
              .dataCopied, .dataClosed] })
    ∧ responseClose
        { freshSession [.reply 226 "Transfer complete"] with
          log := [.sent "PASV", .read 227, .dialed 51213, .sent "RETR f.txt", .read (-1)] }
        (some (.text "broken pipe"))
      = (some (.text "broken pipe"),
          { freshSession [] with
            log := [.sent "PASV", .read 227, .dialed 51213, .sent "RETR f.txt", .read (-1),
              .dataClosed, .read 226] }) := by
  decide

/-- What `Cmd` leaves of the session: only the pending writes and the log
change. -/
theorem connCmd_frame (c : ServerConn) (line : String) :
    ∃ ws l, (connCmd c line).2 = { c with writes := ws, log := c.log ++ l }
      ∧ ∀ x ∈ commandsOf l, x = line := by
  unfold connCmd
  split_ifs
  · exact ⟨c.writes, [], by simp, by simp [commandsOf]⟩
  · split
    · rename_i e ws hw
      exact ⟨ws, [], by simp, by simp [commandsOf]⟩
    · rename_i ws hw
      exact ⟨ws, [.sent line], rfl, by simp [commandsOf]⟩
    · rename_i hw
      exact ⟨[], [.sent line], by simp [hw], by simp [commandsOf]⟩

/-- What `ReadResponse` leaves of the session: only the pending replies and the
log change, and nothing is sent. -/
theorem connReadResponse_frame (c : ServerConn) (expect : Int) :
    ∃ inc l, (connReadResponse c expect).2 = { c with incoming := inc, log := c.log ++ l }
      ∧ commandsOf l = [] := by
  unfold connReadResponse
  split_ifs
  · exact ⟨c.incoming, [], by simp, rfl⟩
  · split
    · rename_i hi
      exact ⟨[], [.read expect], by simp [hi], rfl⟩
    · exact ⟨_, [.read expect], rfl, rfl⟩
    · split_ifs <;> exact ⟨_, [.read expect], rfl, rfl⟩

/-- What `cmd` leaves of the session: the replies, the writes and the log
change, and the only command line it may send is its own. -/
theorem cmd_frame (c : ServerConn) (expected : Int) (line : String) :
    ∃ inc ws l, (cmd c expected line).2
        = { c with incoming := inc, writes := ws, log := c.log ++ l }
      ∧ ∀ x ∈ commandsOf l, x = line := by
  unfold cmd
  obtain ⟨ws, l1, h1, hl1⟩ := connCmd_frame c line
  rcases hc : connCmd c line with ⟨_ | e, c1⟩
  · rw [hc] at h1
    simp only at h1
    obtain ⟨inc, l2, h2, hl2⟩ := connReadResponse_frame c1 expected
    refine ⟨inc, ws, l1 ++ l2, ?_, ?_⟩
    · simp only [h2]
      rw [h1]
      simp [List.append_assoc]
    · intro x hx
      simp only [commandsOf, List.filterMap_append, List.mem_append] at hx
      rcases hx with hx | hx
      · exact hl1 x hx
      · simp only [commandsOf] at hl2
        rw [hl2] at hx
        simp at hx
  · rw [hc] at h1
    simp only at h1
    exact ⟨c.incoming, ws, l1, by simp [h1], hl1⟩

theorem cmd_closed (c : ServerConn) (expected : Int) (line : String) :
    (cmd c expected line).2.closed = c.closed := by
  obtain ⟨_, _, _, h, _⟩ := cmd_frame c expected line
  rw [h]

/-- On an open session `Quit` closes the transport exactly when it returns no
error. -/
theorem Quit_closes_iff (c : ServerConn) (hopen : c.closed = false) :
    (Quit c).2.closed = true ↔ (Quit c).1 = none := by
  have hcl := cmd_closed c StatusClosing "QUIT"
  unfold Quit
  rcases hq : cmd c StatusClosing "QUIT" with ⟨⟨code, msg, _ | e⟩, c1⟩
  · rw [hq] at hcl
    simp only at hcl
    simp [connClose, hcl, hopen]
  · rw [hq] at hcl
    simp only at hcl
    simp [hcl, hopen]

/-- C8 at an open session whose server answers QUIT with 500: `Quit` returns
the status error and the transport is still open, nothing was closed. -/
theorem C8_rejected_quit_leaves_transport_open :
    (freshSession [.reply 500 "Unknown command"]).closed = false
    ∧ Quit (freshSession [.reply 500 "Unknown command"])
      = (some (.status 500 "Unknown command"),
          { freshSession [] with log := [.sent "QUIT", .read 221] })
    ∧ (Quit (freshSession [.reply 500 "Unknown command"])).2.closed = false := by
  decide

/-! ## Claims on Login -/

/-- On an open session whose writes succeed, `cmd` sends its line and reads
once; the stored credentials stay. -/
theorem cmd_open (c : ServerConn) (expected : Int) (line : String)
    (hopen : c.closed = false) (hw : c.writes = []) :
    (cmd c expected line).2.log = c.log ++ [.sent line, .read expected]
    ∧ (cmd c expected line).2.username = c.username
    ∧ (cmd c expected line).2.password = c.password := by
  rcases hi : c.incoming with _ | ⟨⟨code, msg⟩ | e, more⟩
  · simp [cmd, connCmd, hopen, hw, connReadResponse, hi]
  · simp only [cmd, connCmd, hopen, hw, Bool.false_eq_true, if_false, connReadResponse, hi]
    split_ifs <;> simp
  · simp [cmd, connCmd, hopen, hw, connReadResponse, hi]

theorem sentSince_of_log (c c1 : ServerConn) (l : List Event) (h : c1.log = c.log ++ l) :
    sentSince c c1 = commandsOf l := by
  simp [sentSince, h]

/-- On an open session whose writes succeed and whose next reply is well
formed, `cmd` returns that reply, with a status error when its code is not the
expected one. -/
theorem cmd_reply (c : ServerConn) (expected : Int) (line : String) (code : Nat)
    (msg : String) (rest : List Incoming)
    (hopen : c.closed = false) (hw : c.writes = []) (hin : c.incoming = .reply code msg :: rest) :
    cmd c expected line
      = ((code, msg, if unexpected expected code then some (.status code msg) else none),
          { c with incoming := rest, log := c.log ++ [.sent line, .read expected] }) := by
  simp only [cmd, connCmd, hopen, hw, Bool.false_eq_true, if_false, connReadResponse, hin]
  split_ifs <;> simp

theorem cmd_extends (c : ServerConn) (expected : Int) (line : String) :
    ∃ l, (cmd c expected line).2.log = c.log ++ l ∧ ∀ x ∈ commandsOf l, x = line := by
  obtain ⟨_, _, l, h, hl⟩ := cmd_frame c expected line
  exact ⟨l, by rw [h], hl⟩

theorem Feat_extends (c : ServerConn) :
    ∃ l, (Feat c).2.log = c.log ++ l ∧ ∀ x ∈ commandsOf l, x = "FEAT" := by
  obtain ⟨l, h, hl⟩ := cmd_extends c (-1) "FEAT"
  refine ⟨l, ?_, hl⟩
  unfold Feat
  rcases hq : cmd c (-1) "FEAT" with ⟨⟨code, msg, _ | e⟩, c1⟩
  · rw [hq] at h
    simp only at h
    simp only
    split_ifs <;> simp [h]
  · rw [hq] at h
    simp only at h
    simp [h]

theorem Quit_extends (c : ServerConn) :
    ∃ l, (Quit c).2.log = c.log ++ l ∧ ∀ x ∈ commandsOf l, x = "QUIT" := by
  obtain ⟨l, h, hl⟩ := cmd_extends c StatusClosing "QUIT"
  unfold Quit
  rcases hq : cmd c StatusClosing "QUIT" with ⟨⟨code, msg, _ | e⟩, c1⟩
  · rw [hq] at h
    simp only at h
    simp only [connClose]
    split_ifs
    · exact ⟨l, by simp [h], hl⟩
    · refine ⟨l ++ [.controlClosed], by simp [h], ?_⟩
      intro x hx
      simp only [commandsOf, List.filterMap_append, List.mem_append] at hx
      rcases hx with hx | hx
      · exact hl x hx
      · simp at hx
  · rw [hq] at h
    simp only at h
    exact ⟨l, by simp [h], hl⟩

theorem loginFinish_extends (c : ServerConn) (user password : String) :
    ∃ l, (loginFinish c user password).2.log = c.log ++ l
      ∧ ∀ x ∈ commandsOf l, x = "TYPE I" ∨ x = "FEAT" ∨ x = "QUIT" := by
  obtain ⟨l1, h1, hl1⟩ :=
    cmd_extends { c with username := user, password := password } StatusCommandOK "TYPE I"
  simp only [loginFinish]
  rcases hq : cmd { c with username := user, password := password } StatusCommandOK "TYPE I"
    with ⟨⟨code, msg, _ | e⟩, c2⟩
  · rw [hq] at h1
    simp only at h1
    obtain ⟨l2, h2, hl2⟩ := Feat_extends c2
    rcases hf : Feat c2 with ⟨_ | e, c3⟩
    · rw [hf] at h2
      simp only at h2
      refine ⟨l1 ++ l2, by simp [hf, h2, h1], ?_⟩
      intro x hx
      simp only [commandsOf, List.filterMap_append, List.mem_append] at hx
      rcases hx with hx | hx
      · exact Or.inl (hl1 x hx)
      · exact Or.inr (Or.inl (hl2 x hx))
    · rw [hf] at h2
      simp only at h2
      obtain ⟨l3, h3, hl3⟩ := Quit_extends c3
      refine ⟨l1 ++ l2 ++ l3, by simp [hf, h3, h2, h1], ?_⟩
      intro x hx
      simp only [commandsOf, List.filterMap_append, List.mem_append] at hx
      rcases hx with (hx | hx) | hx
      · exact Or.inl (hl1 x hx)
      · exact Or.inr (Or.inl (hl2 x hx))
      · exact Or.inr (Or.inr (hl3 x hx))
  · rw [hq] at h1
    simp only at h1
    exact ⟨l1, by simp [h1], fun x hx => Or.inl (hl1 x hx)⟩

theorem pass_ne_other (password : String) :
    "PASS " ++ password ≠ "TYPE I" ∧ "PASS " ++ password ≠ "FEAT"
      ∧ "PASS " ++ password ≠ "QUIT" ∧ ∀ user : String, "PASS " ++ password ≠ "USER " ++ user := by
  refine ⟨?_, ?_, ?_, ?_⟩
  · intro h
    have := congrArg String.data h
    simp [String.data_append] at this
  · intro h
    have := congrArg String.data h
    simp [String.data_append] at this
  · intro h
    have := congrArg String.data h
    simp [String.data_append] at this
  · intro user h
    have := congrArg String.data h
    simp [String.data_append] at this

/-- The session right after the exchange of USER and its reply. -/
theorem Login_after_user (c : ServerConn) (user password : String) (code : Nat) (msg : String)
    (rest : List Incoming)
    (hopen : c.closed = false) (hw : c.writes = []) (hin : c.incoming = .reply code msg :: rest) :
    Login c user password =
      if (code : Int) = StatusLoggedIn then
        loginFinish (afterExchange c ("USER " ++ user) (-1) rest) user password
      else if (code : Int) = StatusUserOK then
        match cmd (afterExchange c ("USER " ++ user) (-1) rest)
          StatusLoggedIn ("PASS " ++ password) with
        | ((_, _, some e), c2) => (some e, c2)
        | ((_, _, none), c2) => loginFinish c2 user password
      else (some (.text msg), (afterExchange c ("USER " ++ user) (-1) rest)) := by
  have hu : unexpected (-1) code = false := by simp [unexpected]
  simp only [Login, cmd_reply c (-1) _ code msg rest hopen hw hin, hu, Bool.false_eq_true,
    if_false, afterExchange]

/-- C9: after a reply to USER, `Login` sends PASS exactly when the code is 331,
and then fails unless the next reply has the code 230; when the code is
neither 230 nor 331 it returns an error whose message is the reply message,
has sent nothing but USER, and the stored user name and password are the ones
of before. -/
theorem C9_login_branches_on_user_reply (c : ServerConn) (user password : String) (code : Nat)
    (msg : String) (rest : List Incoming)
    (hopen : c.closed = false) (hw : c.writes = []) (hin : c.incoming = .reply code msg :: rest) :
    ("PASS " ++ password ∈ sentSince c (Login c user password).2 ↔ (code : Int) = StatusUserOK)
    ∧ ((code : Int) = StatusUserOK → (¬ ∃ m more, rest = .reply 230 m :: more) →
        (Login c user password).1 ≠ none
        ∧ (Login c user password).2.log = c.log ++ [.sent ("USER " ++ user), .read (-1),
            .sent ("PASS " ++ password), .read StatusLoggedIn]
        ∧ (Login c user password).2.username = c.username
        ∧ (Login c user password).2.password = c.password)
    ∧ ((code : Int) ≠ StatusLoggedIn → (code : Int) ≠ StatusUserOK →
        (Login c user password).1 = some (.text msg)
        ∧ (GoError.text msg).Error = msg
        ∧ (Login c user password).2.log = c.log ++ [.sent ("USER " ++ user), .read (-1)]
        ∧ sentSince c (Login c user password).2 = ["USER " ++ user]
        ∧ (Login c user password).2.username = c.username
        ∧ (Login c user password).2.password = c.password) := by
  obtain ⟨hp1, hp2, hp3, hp4⟩ := pass_ne_other password
  rw [Login_after_user c user password code msg rest hopen hw hin]
  have hlog0 : (afterExchange c ("USER " ++ user) (-1) rest).log
      = c.log ++ [.sent ("USER " ++ user), .read (-1)] := rfl
  have hopen0 : (afterExchange c ("USER " ++ user) (-1) rest).closed = false := hopen
  have hw0 : (afterExchange c ("USER " ++ user) (-1) rest).writes = [] := hw
  obtain ⟨hplog, hpuser, hppass⟩ := cmd_open (afterExchange c ("USER " ++ user) (-1) rest)
    StatusLoggedIn ("PASS " ++ password) hopen0 hw0
  refine ⟨?_, ?_, ?_⟩
  · by_cases h230 : (code : Int) = StatusLoggedIn
    · have hne : ¬ ((code : Int) = StatusUserOK) := by
        rw [h230]; decide
      rw [if_pos h230]
      obtain ⟨l, hl, hcmds⟩ :=
        loginFinish_extends (afterExchange c ("USER " ++ user) (-1) rest) user password
      rw [hlog0, List.append_assoc] at hl
      rw [sentSince_of_log _ _ _ hl]
      constructor
      · intro hmem
        exfalso
        simp only [commandsOf, List.filterMap_append, List.mem_append] at hmem
        rcases hmem with hmem | hmem
        · simp at hmem
          exact hp4 user hmem
        · rcases hcmds _ hmem with h | h | h
          · exact hp1 h
          · exact hp2 h
          · exact hp3 h
      · intro h
        exact absurd h hne
    · by_cases h331 : (code : Int) = StatusUserOK
      · rw [if_neg h230, if_pos h331]
        refine ⟨fun _ => h331, fun _ => ?_⟩
        rcases hq : cmd (afterExchange c ("USER " ++ user) (-1) rest)
          StatusLoggedIn ("PASS " ++ password) with ⟨⟨k, m, _ | e⟩, c2⟩
        · rw [hq] at hplog
          simp only at hplog
          obtain ⟨l, hl, _⟩ := loginFinish_extends c2 user password
          rw [hplog, hlog0, List.append_assoc, List.append_assoc] at hl
          simp only
          rw [sentSince_of_log _ _ _ hl]
          simp [commandsOf]
        · rw [hq] at hplog
          simp only at hplog
          rw [hlog0, List.append_assoc] at hplog
          simp only
          rw [sentSince_of_log _ _ _ hplog]
          simp [commandsOf]
      · rw [if_neg h230, if_neg h331]
        rw [sentSince_of_log _ _ _ hlog0]
        constructor
        · intro hmem
          simp [commandsOf] at hmem
          exact absurd hmem (hp4 user)
        · intro h
          exact absurd h h331
  · intro h331 hrest
    have h230 : ¬ ((code : Int) = StatusLoggedIn) := by
      rw [h331]; decide
    rw [if_neg h230, if_pos h331]
    have hfail : ∃ e, (cmd (afterExchange c ("USER " ++ user) (-1) rest)
        StatusLoggedIn ("PASS " ++ password)).1.2.2 = some e := by
      rcases hr : rest with _ | ⟨⟨k, m⟩ | e, more⟩
      · simp [cmd, connCmd, connReadResponse, hopen, hw, afterExchange]
      · have hk : k ≠ 230 := by
          intro hk
          exact hrest ⟨m, more, by rw [hr, hk]⟩
        have hun : unexpected StatusLoggedIn k = true := by
          simp [unexpected, StatusLoggedIn]
          omega
        simp [cmd, connCmd, connReadResponse, hopen, hw, hun, afterExchange]
      · simp [cmd, connCmd, connReadResponse, hopen, hw, afterExchange]
    obtain ⟨e, he⟩ := hfail
    rcases hq : cmd (afterExchange c ("USER " ++ user) (-1) rest)
      StatusLoggedIn ("PASS " ++ password) with ⟨⟨k, m, _ | e1⟩, c2⟩
    · rw [hq] at he
      simp at he
    · rw [hq] at hplog hpuser hppass
      simp only at hplog hpuser hppass
      simp only
      refine ⟨by simp, ?_, hpuser, hppass⟩
      rw [hplog, hlog0]
      simp
  · intro h230 h331
    rw [if_neg h230, if_neg h331]
    refine ⟨rfl, rfl, hlog0, ?_, rfl, rfl⟩
    rw [sentSince_of_log _ _ _ hlog0]
    simp [commandsOf]

/-- C9 at the reply "530 Login incorrect." to USER. -/
theorem C9_login_branches_on_user_reply_witness :
    (Login (freshSession [.reply 530 "Login incorrect."]) "anonymous" "secret").1
        = some (.text "Login incorrect.")
    ∧ sentSince (freshSession [.reply 530 "Login incorrect."])
        (Login (freshSession [.reply 530 "Login incorrect."]) "anonymous" "secret").2
        = ["USER " ++ "anonymous"] :=
  have h := (C9_login_branches_on_user_reply (freshSession [.reply 530 "Login incorrect."])
    "anonymous" "secret" 530 "Login incorrect." [] rfl rfl rfl).2.2 (by decide) (by decide)
  ⟨h.1, h.2.2.2.1⟩

/-! ## Claims on AuthTLS -/

theorem cmd_flags (c : ServerConn) (expected : Int) (line : String) :
    (cmd c expected line).2.tlsSecuredControlConnection = c.tlsSecuredControlConnection
    ∧ (cmd c expected line).2.tlsSecuredDataConnection = c.tlsSecuredDataConnection := by
  obtain ⟨_, _, _, h, _⟩ := cmd_frame c expected line
  rw [h]
  exact ⟨rfl, rfl⟩

/-- The two ways `cmd` can go: it sends the line and reads a reply with an
accepted code; or it fails, and then either nothing happened on the wire, or
the line was sent and what was read is not a reply with an accepted code. -/
theorem cmd_cases (c : ServerConn) (expected : Int) (line : String) :
    (∃ k m rest, c.closed = false ∧ c.incoming = .reply k m :: rest
        ∧ unexpected expected k = false
        ∧ cmd c expected line = ((k, m, none),
            { c with incoming := rest, writes := c.writes.tail,
                     log := c.log ++ [.sent line, .read expected] }))
    ∨ ((cmd c expected line).1.2.2 ≠ none
        ∧ ((cmd c expected line).2.log = c.log
          ∨ ((cmd c expected line).2.log = c.log ++ [.sent line, .read expected]
            ∧ ∀ k1 m1 rest, c.incoming = .reply k1 m1 :: rest → unexpected expected k1 = true))) := by
  by_cases hopen : c.closed = true
  · right
    simp [cmd, connCmd, hopen]
  · have hopen : c.closed = false := by simpa using hopen
    rcases hw : c.writes with _ | ⟨_ | e, ws⟩
    · rcases hi : c.incoming with _ | ⟨⟨k, m⟩ | e, more⟩
      · right
        simp [cmd, connCmd, connReadResponse, hopen, hw, hi]
      · by_cases hun : unexpected expected k = true
        · right
          simp [cmd, connCmd, connReadResponse, hopen, hw, hi, hun]
        · left
          have hun : unexpected expected k = false := by simpa using hun
          exact ⟨k, m, more, hopen, rfl, hun,
            by simp [cmd, connCmd, connReadResponse, hopen, hw, hi, hun]⟩
      · right
        simp [cmd, connCmd, connReadResponse, hopen, hw, hi]
    · rcases hi : c.incoming with _ | ⟨⟨k, m⟩ | e, more⟩
      · right
        simp [cmd, connCmd, connReadResponse, hopen, hw, hi]
      · by_cases hun : unexpected expected k = true
        · right
          simp [cmd, connCmd, connReadResponse, hopen, hw, hi, hun]
        · left
          have hun : unexpected expected k = false := by simpa using hun
          exact ⟨k, m, more, hopen, rfl, hun,
            by simp [cmd, connCmd, connReadResponse, hopen, hw, hi, hun]⟩
      · right
        simp [cmd, connCmd, connReadResponse, hopen, hw, hi]
    · right
      simp [cmd, connCmd, hopen, hw]

theorem unexpected_exact (expected : Int) (k : Nat) (h1 : 100 ≤ expected) (h2 : expected < 1000) :
    unexpected expected k = false ↔ (k : Int) = expected := by
  have a1 : ¬ (expected < 10) := by omega
  have a2 : ¬ (expected < 100) := by omega
  simp [unexpected, a1, a2, h1, h2]

/-- How `AuthTLS` goes on a session that has a TLS configuration: AUTH TLS,
then the wrapping of the control connection, then the two further steps. -/
theorem AuthTLS_steps (c : ServerConn) (cfg : TLSConfig) (htls : c.tlsConfig = some cfg) :
    AuthTLS c =
      match cmd c StatusAuthTLS "AUTH TLS" with
      | ((_, _, some e), c1) => (some (.text ("Error while AUTH TLS command. " ++ e.Error)), c1)
      | ((_, _, none), c1) => pbszStep (wrapControl c1) := by
  simp only [AuthTLS, htls, pbszStep, protStep, wrapControl]

theorem protStep_spec (c : ServerConn) :
    ((protStep c).1 = none ↔
        (∃ m rest, c.incoming = .reply 200 m :: rest)
        ∧ (protStep c).2.log = c.log ++ [.sent "PROT P", .read StatusCommandOK])
    ∧ ((protStep c).1 = none → (protStep c).2.tlsSecuredDataConnection = true)
    ∧ ((protStep c).1 ≠ none →
        (protStep c).2.tlsSecuredDataConnection = c.tlsSecuredDataConnection)
    ∧ (protStep c).2.tlsSecuredControlConnection = c.tlsSecuredControlConnection := by
  obtain ⟨hf, hg⟩ := cmd_flags c StatusCommandOK "PROT P"
  rcases cmd_cases c StatusCommandOK "PROT P" with ⟨k, m, r, hop, hin, hun, hc⟩ | ⟨hne, hlog⟩
  · have hk : k = 200 := by
      have := (unexpected_exact StatusCommandOK k (by decide) (by decide)).mp hun
      simp only [StatusCommandOK] at this
      exact_mod_cast this
    subst hk
    simp only [protStep, hc]
    simp [hin]
  · rcases hq : cmd c StatusCommandOK "PROT P" with ⟨⟨k, m, _ | e⟩, c1⟩
    · rw [hq] at hne
      simp at hne
    · rw [hq] at hf hg hlog
      simp only at hf hg hlog
      simp only [protStep, hq]
      refine ⟨?_, by simp, fun _ => hg, hf⟩
      constructor
      · intro h; simp at h
      · rintro ⟨⟨m1, rest, hin⟩, hl⟩
        exfalso
        rcases hlog with h | ⟨_, h⟩
        · rw [h] at hl
          simp at hl
        · have := h 200 m1 rest hin
          simp [unexpected, StatusCommandOK] at this

theorem pbszStep_spec (c : ServerConn) :
    ((pbszStep c).1 = none ↔
        (∃ m2 m3 rest, c.incoming = .reply 200 m2 :: .reply 200 m3 :: rest)
        ∧ (pbszStep c).2.log = c.log ++ [.sent "PBSZ 0", .read StatusCommandOK,
            .sent "PROT P", .read StatusCommandOK])
    ∧ ((pbszStep c).1 = none → (pbszStep c).2.tlsSecuredDataConnection = true)
    ∧ ((pbszStep c).1 ≠ none →
        (pbszStep c).2.tlsSecuredDataConnection = c.tlsSecuredDataConnection)
    ∧ (pbszStep c).2.tlsSecuredControlConnection = c.tlsSecuredControlConnection := by
  obtain ⟨hf, hg⟩ := cmd_flags c StatusCommandOK "PBSZ 0"
  rcases cmd_cases c StatusCommandOK "PBSZ 0" with ⟨k, m, r, hop, hin, hun, hc⟩ | ⟨hne, hlog⟩
  · have hk : k = 200 := by
      have := (unexpected_exact StatusCommandOK k (by decide) (by decide)).mp hun
      simp only [StatusCommandOK] at this
      exact_mod_cast this
    subst hk
    obtain ⟨hiff, hok, herr, hctl⟩ := protStep_spec
      { c with incoming := r, writes := c.writes.tail,
               log := c.log ++ [.sent "PBSZ 0", .read StatusCommandOK] }
    simp only [pbszStep, hc]
    refine ⟨?_, hok, herr, hctl⟩
    rw [hiff]
    simp [hin]
  · rcases hq : cmd c StatusCommandOK "PBSZ 0" with ⟨⟨k, m, _ | e⟩, c1⟩
    · rw [hq] at hne
      simp at hne
    · rw [hq] at hf hg hlog
      simp only at hf hg hlog
      simp only [pbszStep, hq]
      refine ⟨?_, by simp, fun _ => hg, hf⟩
      constructor
      · intro h; simp at h
      · rintro ⟨_, hl⟩
        exfalso
        rcases hlog with h | ⟨h, _⟩
        · rw [h] at hl
          simp at hl
        · rw [h] at hl
          simp at hl

/-- C10: `AuthTLS` returns no error exactly when the replies to AUTH TLS, PBSZ 0
and PROT P have the codes 234, 200 and 200 and the three commands went out in
this order, and then both flags are set; when the exchange of AUTH TLS fails,
nothing but AUTH TLS was sent and both flags are as before; on every error the
data-secured flag is as before, so it is only set after PBSZ 0 and PROT P were
accepted. -/
theorem C10_authtls_all_or_nothing (c : ServerConn) :
    ((AuthTLS c).1 = none ↔
        (∃ m1 m2 m3 rest,
          c.incoming = .reply 234 m1 :: .reply 200 m2 :: .reply 200 m3 :: rest)
        ∧ (AuthTLS c).2.log = c.log ++ tlsHandshakeLog)
    ∧ ((AuthTLS c).1 = none →
        (AuthTLS c).2.tlsSecuredControlConnection = true
        ∧ (AuthTLS c).2.tlsSecuredDataConnection = true)
    ∧ ((cmd c StatusAuthTLS "AUTH TLS").1.2.2 ≠ none →
        (AuthTLS c).1 ≠ none
        ∧ (∀ x ∈ sentSince c (AuthTLS c).2, x = "AUTH TLS")
        ∧ (AuthTLS c).2.tlsSecuredControlConnection = c.tlsSecuredControlConnection
        ∧ (AuthTLS c).2.tlsSecuredDataConnection = c.tlsSecuredDataConnection)
    ∧ ((AuthTLS c).1 ≠ none →
        (AuthTLS c).2.tlsSecuredDataConnection = c.tlsSecuredDataConnection) := by
  rcases htls : c.tlsConfig with _ | cfg
  · have hA : AuthTLS c = (some (.text "TLS-configuration ist missing."), c) := by
      simp [AuthTLS, htls]
    rw [hA]
    simp [sentSince, commandsOf, tlsHandshakeLog]
  · rw [AuthTLS_steps c cfg htls]
    obtain ⟨l1, hl1, hs1⟩ := cmd_extends c StatusAuthTLS "AUTH TLS"
    obtain ⟨hf1, hg1⟩ := cmd_flags c StatusAuthTLS "AUTH TLS"
    rcases cmd_cases c StatusAuthTLS "AUTH TLS" with
      ⟨k1, m1, r1, hop1, hin1, hun1, hc1⟩ | ⟨hne1, hlog1⟩
    · -- AUTH TLS accepted
      have hk1 : k1 = 234 := by
        have := (unexpected_exact StatusAuthTLS k1 (by decide) (by decide)).mp hun1
        simp only [StatusAuthTLS] at this
        exact_mod_cast this
      subst hk1
      obtain ⟨hiff, hok, herr, hctl⟩ := pbszStep_spec (wrapControl
        { c with incoming := r1, writes := c.writes.tail,
                 log := c.log ++ [.sent "AUTH TLS", .read StatusAuthTLS] })
      simp only [hc1]
      refine ⟨?_, ?_, ?_, ?_⟩
      · rw [hiff]
        simp [hin1, wrapControl, tlsHandshakeLog]
      · intro h
        exact ⟨by rw [hctl]; rfl, hok h⟩
      · intro h
        simp at h
      · intro h
        rw [herr h]
        rfl
    · -- AUTH TLS failed
      rcases hq : cmd c StatusAuthTLS "AUTH TLS" with ⟨⟨k, m, _ | e⟩, c1⟩
      · rw [hq] at hne1
        simp at hne1
      · rw [hq] at hl1 hf1 hg1 hlog1
        simp only at hl1 hf1 hg1 hlog1 ⊢
        refine ⟨?_, by simp, ?_, ?_⟩
        · constructor
          · intro h; simp at h
          · rintro ⟨_, hlog⟩
            exfalso
            rcases hlog1 with h | ⟨h, _⟩
            · rw [h] at hlog
              simp [tlsHandshakeLog] at hlog
            · rw [h] at hlog
              simp [tlsHandshakeLog] at hlog
        · intro _
          refine ⟨by simp, ?_, hf1, hg1⟩
          rw [sentSince_of_log _ _ _ hl1]
          exact hs1
        · intro _
          exact hg1

/-- C10 at a server that accepts AUTH TLS, PBSZ 0 and PROT P. -/
theorem C10_authtls_all_or_nothing_witness :
    (AuthTLS (freshSession [.reply 234 "AUTH TLS successful", .reply 200 "PBSZ=0",
        .reply 200 "Protection level set to P"])).1 = none
    ∧ (AuthTLS (freshSession [.reply 234 "AUTH TLS successful", .reply 200 "PBSZ=0",
        .reply 200 "Protection level set to P"])).2.tlsSecuredControlConnection = true
    ∧ (AuthTLS (freshSession [.reply 234 "AUTH TLS successful", .reply 200 "PBSZ=0",
        .reply 200 "Protection level set to P"])).2.tlsSecuredDataConnection = true :=
  have ok : (AuthTLS (freshSession [.reply 234 "AUTH TLS successful", .reply 200 "PBSZ=0",
      .reply 200 "Protection level set to P"])).1 = none := by decide
  ⟨ok, (C10_authtls_all_or_nothing (freshSession [.reply 234 "AUTH TLS successful",
      .reply 200 "PBSZ=0", .reply 200 "Protection level set to P"])).2.1 ok⟩

/-! ## Claims on the task queue -/

/-- C18: for every task list and every requested concurrency, with e the
effective concurrency, the task queue has the capacity len(tasks) + e and
holds every task in the caller's order with the stop flag cleared, followed by
exactly e stop tokens; it holds as many items as its capacity, and the set-up
gets through, so no enqueue waits. -/
theorem C18_task_queue_layout (tasks : List TransferTask) (nrParallel : Int) :
    ∃ s, setup tasks nrParallel = .ok s
      ∧ s.nrParallel = clampParallel tasks.length nrParallel
      ∧ (s.taskChannel.cap : Int) = (tasks.length : Int) + clampParallel tasks.length nrParallel
      ∧ s.taskChannel.buf
          = tasks.map (fun t => { t with finished := false })
            ++ List.replicate (clampParallel tasks.length nrParallel).toNat
                { direction := .Store, localpath := "", remotepath := "", finished := true }
      ∧ (stopTokens s.taskChannel : Int) = clampParallel tasks.length nrParallel
      ∧ s.taskChannel.buf.length = s.taskChannel.cap := by
  have h0 := clampParallel_nonneg tasks.length nrParallel
  refine ⟨_, setup_eq tasks nrParallel, rfl, ?_, rfl, ?_, ?_⟩
  · simp only [Nat.cast_add]
    omega
  · simp only [stopTokens, List.countP_append, countP_finished_work, countP_finished_stops,
      zero_add]
    omega
  · simp

/-! ## Claims on CurrentDir -/

/-- A reply to PWD with exactly one double quote makes `CurrentDir` panic: the
first and the last quote are the same one, and the slice from behind it up to
it is out of range. -/
theorem CurrentDir_one_quote (c : ServerConn) (pre post : String) (rest : List Incoming)
    (hopen : c.closed = false) (hw : c.writes = [])
    (hin : c.incoming = .reply 257 (pre ++ "\"" ++ post) :: rest)
    (hpre : '"' ∉ pre.data) (hpost : '"' ∉ post.data) :
    (CurrentDir c).1 = .panic "slice bounds out of range" := by
  have hu : unexpected StatusPathCreated 257 = false := by decide
  have hdata : (pre ++ "\"" ++ post).data = pre.data ++ '"' :: post.data := by
    simp [String.data_append]
  have hstart : Index (pre ++ "\"" ++ post) "\"" = (pre.data.length : Int) := by
    simp only [Index, hdata]
    exact indexChars_single '"' pre.data post.data hpre
  have hstop : LastIndex (pre ++ "\"" ++ post) "\"" = (pre.data.length : Int) := by
    simp only [LastIndex, hdata]
    exact lastIndexChars_single '"' pre.data post.data hpost
  have hne : ¬ ((pre.data.length : Int) = -1) := by omega
  have hsl : slice (pre ++ "\"" ++ post) ((pre.data.length : Int) + 1) (pre.data.length : Int)
      = none := by
    simp [slice]
  simp only [CurrentDir, cmd_reply c _ _ 257 _ rest hopen hw hin, hu, Bool.false_eq_true,
    if_false, hstart, hstop, hne, or_self, hsl]

theorem indexChars_absent (c : Char) :
    ∀ l : List Char, c ∉ l → indexChars [c] l = -1 := by
  intro l
  induction l with
  | nil => intro _; simp [indexChars, List.isPrefixOf]
  | cons x l ih =>
    intro h
    have hx : ¬ c = x := fun hcx => h (by simp [hcx])
    have hl : c ∉ l := fun hin => h (by simp [hin])
    simp [indexChars, List.isPrefixOf, ih hl, hx]

/-- A reply to PWD without a double quote gives the format error. -/
theorem CurrentDir_no_quote (c : ServerConn) (msg : String) (rest : List Incoming)
    (hopen : c.closed = false) (hw : c.writes = [])
    (hin : c.incoming = .reply 257 msg :: rest) (hmsg : '"' ∉ msg.data) :
    (CurrentDir c).1 = .err (.text "Unsuported PWD response format") := by
  have hu : unexpected StatusPathCreated 257 = false := by decide
  have hstart : Index msg "\"" = -1 := indexChars_absent '"' msg.data hmsg
  simp only [CurrentDir, cmd_reply c _ _ 257 _ rest hopen hw hin, hu, Bool.false_eq_true,
    if_false, hstart, true_or, if_true]

/-- A reply to PWD with two or more double quotes gives the text between the
first and the last of them. -/
theorem CurrentDir_quoted (c : ServerConn) (pre dir post : String) (rest : List Incoming)
    (hopen : c.closed = false) (hw : c.writes = [])
    (hin : c.incoming = .reply 257 (pre ++ "\"" ++ dir ++ "\"" ++ post) :: rest)
    (hpre : '"' ∉ pre.data) (hpost : '"' ∉ post.data) :
    (CurrentDir c).1 = .ok dir := by
  have hu : unexpected StatusPathCreated 257 = false := by decide
  have hmsg : pre ++ "\"" ++ dir ++ "\"" ++ post
      = ⟨(pre.data ++ ['"']) ++ dir.data ++ ('"' :: post.data)⟩ := by
    apply String.ext
    simp [String.data_append]
  have hstart : Index ⟨(pre.data ++ ['"']) ++ dir.data ++ ('"' :: post.data)⟩ "\""
      = (pre.data.length : Int) := by
    have := indexChars_single '"' pre.data (dir.data ++ '"' :: post.data) hpre
    simpa [Index] using this
  have hstop : LastIndex ⟨(pre.data ++ ['"']) ++ dir.data ++ ('"' :: post.data)⟩ "\""
      = ((pre.data ++ ['"']).length : Int) + dir.data.length := by
    have := lastIndexChars_single '"' ((pre.data ++ ['"']) ++ dir.data) post.data hpost
    simp only [LastIndex]
    rw [this]
    simp only [List.length_append, List.length_singleton, Nat.cast_add, Nat.cast_one]
  have hsl : slice ⟨(pre.data ++ ['"']) ++ dir.data ++ ('"' :: post.data)⟩
      ((pre.data.length : Int) + 1) (((pre.data ++ ['"']).length : Int) + dir.data.length)
      = some dir := by
    have := slice_middle (pre.data ++ ['"']) dir.data ('"' :: post.data)
    simpa using this
  have hne1 : ¬ ((pre.data.length : Int) = -1) := by omega
  have hne2 : ¬ (((pre.data ++ ['"']).length : Int) + dir.data.length = -1) := by omega
  rw [hmsg] at hin
  simp only [CurrentDir, cmd_reply c _ _ 257 _ rest hopen hw hin, hu, Bool.false_eq_true,
    if_false, hstart, hstop, hne1, hne2, or_self, hsl]

/-- C12 at the reply 257 with the message `"/home/user is the current directory`
(one double quote): `CurrentDir` panics with "slice bounds out of range", it
returns neither a path nor an error. -/
theorem C12_one_quote_panics :
    CurrentDir (freshSession [.reply 257 "\"/home/user is the current directory"])
      = (.panic "slice bounds out of range",
          { freshSession [] with log := [.sent "PWD", .read 257] }) := by
  decide

/-! ## Claims on the failure paths of the passive-mode parsers -/

/-- C16 at four replies: PASV with four fields between the parentheses, PASV
with ")" before "(", PASV with empty parentheses and EPSV with the message
"|||" all make the parser panic (index or slice bounds out of range) where the
claim expects an error; only the missing parentheses give the format error. -/
theorem C16_short_replies_panic :
    pasvPort "Entering Passive Mode (127,0,0,1)" = .panic "index out of range"
    ∧ pasvPort "Entering Passive Mode )127,0,0,1,200,13(" = .panic "slice bounds out of range"
    ∧ pasvPort "Entering Passive Mode ()" = .panic "index out of range"
    ∧ epsvPort "|||" = .panic "slice bounds out of range"
    ∧ (pasv (freshSession [.reply 227 "Entering Passive Mode (127,0,0,1)"])).1
        = .panic "index out of range"
    ∧ (epsv (freshSession [.reply 229 "|||"])).1 = .panic "slice bounds out of range"
    ∧ pasvPort "Entering Passive Mode" = .err (.text "Invalid PASV response format") := by
  decide

/-! ## Claims on cmdDataConnFrom -/

/-- C19: once the data connection is open and the transfer command got a reply
(after an accepted REST when the offset is not 0), `cmdDataConnFrom` returns
the connection exactly when the code of that reply is 125 or 150; for every
other code it closes the data connection and returns the status error with
this code and the message of the reply. -/
theorem C19_transfer_reply_decides (c c1 : ServerConn) (conn : DataConn) (offset : Nat)
    (line : String) (code : Nat) (msg m0 : String) (rest : List Incoming)
    (hconn : openDataConn c = (.ok conn, c1))
    (hopen : c1.closed = false) (hw : c1.writes = [])
    (hin : c1.incoming
      = (if offset ≠ 0 then [.reply 350 m0] else []) ++ .reply code msg :: rest) :
    ((cmdDataConnFrom c offset line).1 = .ok conn ↔
        (code : Int) = StatusAlreadyOpen ∨ (code : Int) = StatusAboutToSend)
    ∧ ((code : Int) ≠ StatusAlreadyOpen → (code : Int) ≠ StatusAboutToSend →
        (cmdDataConnFrom c offset line).1 = .err (.status code msg)
        ∧ (cmdDataConnFrom c offset line).2.log
            = c1.log
              ++ (if offset ≠ 0 then
                    [.sent ("REST " ++ toString offset), .read StatusRequestFilePending]
                  else [])
              ++ [.sent line, .read (-1), .dataClosed]) := by
  have hu : unexpected (-1) code = false := by simp [unexpected]
  have h350 : unexpected StatusRequestFilePending 350 = false := by decide
  by_cases hoff : offset = 0
  · subst hoff
    simp only [ne_eq, not_true_eq_false, if_false, List.nil_append] at hin
    simp only [cmdDataConnFrom, hconn, ne_eq, not_true_eq_false, if_false, connCmd, hopen, hw,
      Bool.false_eq_true, connReadResponse, hin, hu, dataClose, List.append_nil]
    by_cases h1 : (code : Int) = StatusAlreadyOpen
    · simp [h1]
    · by_cases h2 : (code : Int) = StatusAboutToSend
      · simp [h2]
      · simp [h1, h2]
  · simp only [ne_eq, hoff, not_false_eq_true, if_true, List.singleton_append] at hin
    have hrest := cmd_reply c1 StatusRequestFilePending ("REST " ++ toString offset) 350 m0
      (.reply code msg :: rest) hopen hw hin
    simp only [cmdDataConnFrom, hconn, ne_eq, hoff, not_false_eq_true, if_true, hrest, h350,
      Bool.false_eq_true, if_false, connCmd, hopen, hw, connReadResponse, hu, dataClose]
    by_cases h1 : (code : Int) = StatusAlreadyOpen
    · simp [h1]
    · by_cases h2 : (code : Int) = StatusAboutToSend
      · simp [h2]
      · simp [h1, h2]

/-- C19 at the reply 550 to RETR without offset: the data connection is closed
and the status error 550 comes back. -/
theorem C19_transfer_reply_decides_witness :
    (cmdDataConnFrom
        (freshSession [.reply 227 "Entering Passive Mode (127,0,0,1,200,13)",
          .reply 550 "No such file"]) 0 "RETR f.txt").1
      = .err (.status 550 "No such file") :=
  ((C19_transfer_reply_decides
      (freshSession [.reply 227 "Entering Passive Mode (127,0,0,1,200,13)",
        .reply 550 "No such file"])
      { freshSession [.reply 550 "No such file"] with
        log := [.sent "PASV", .read 227, .dialed 51213] }
      { port := 51213, secured := false } 0 "RETR f.txt" 550 "No such file" "" []
      (by decide) rfl rfl rfl).2 (by decide) (by decide)).1

/-- Past the REST step every error return of `cmdDataConnFrom` closes the data
connection: when the transfer command cannot be written, when its reply
cannot be read, and when the code of the reply is neither 125 nor 150, the
last thing the session did is the close.  The one return that is left is the
failed REST exchange. -/
theorem cmdDataConnFrom_closes_after_rest (c c1 : ServerConn) (conn : DataConn)
    (offset : Nat) (line : String) (hconn : openDataConn c = (.ok conn, c1)) :
    (∃ c2, cmdDataConnFrom c offset line = (.ok conn, c2))
    ∨ (∃ e c2, cmdDataConnFrom c offset line = (.err e, c2)
        ∧ c2.log.getLast? = some .dataClosed)
    ∨ (offset ≠ 0
        ∧ (cmd c1 StatusRequestFilePending ("REST " ++ toString offset)).1.2.2 ≠ none) := by
  have key : ∀ c2 : ServerConn,
      (∃ c5, (match connCmd c2 line with
          | (some e, c3) => ((.err e, dataClose c3) : Res DataConn × ServerConn)
          | (none, c3) =>
            match connReadResponse c3 (-1) with
            | ((_, _, some e), c4) => (.err e, dataClose c4)
            | ((code, msg, none), c4) =>
              if (code : Int) ≠ StatusAlreadyOpen ∧ (code : Int) ≠ StatusAboutToSend then
                (.err (.status code msg), dataClose c4)
              else (.ok conn, c4)) = (.ok conn, c5))
      ∨ (∃ e c5, (match connCmd c2 line with
          | (some e, c3) => ((.err e, dataClose c3) : Res DataConn × ServerConn)
          | (none, c3) =>
            match connReadResponse c3 (-1) with
            | ((_, _, some e), c4) => (.err e, dataClose c4)
            | ((code, msg, none), c4) =>
              if (code : Int) ≠ StatusAlreadyOpen ∧ (code : Int) ≠ StatusAboutToSend then
                (.err (.status code msg), dataClose c4)
              else (.ok conn, c4)) = (.err e, c5)
          ∧ c5.log.getLast? = some .dataClosed) := by
    intro c2
    rcases connCmd c2 line with ⟨_ | e, c3⟩
    · simp only
      rcases connReadResponse c3 (-1) with ⟨⟨code, msg, _ | e⟩, c4⟩
      · simp only
        split_ifs
        · right
          exact ⟨_, _, rfl, by simp [dataClose]⟩
        · left
          exact ⟨_, rfl⟩
      · right
        exact ⟨_, _, rfl, by simp [dataClose]⟩
    · right
      exact ⟨_, _, rfl, by simp [dataClose]⟩
  by_cases hoff : offset = 0
  · subst hoff
    simp only [cmdDataConnFrom, hconn, ne_eq, not_true_eq_false, if_false]
    rcases key c1 with h | h
    · exact Or.inl h
    · exact Or.inr (Or.inl h)
  · simp only [cmdDataConnFrom, hconn, ne_eq, hoff, not_false_eq_true, if_true]
    rcases hq : cmd c1 StatusRequestFilePending ("REST " ++ toString offset)
      with ⟨⟨k, m, _ | e⟩, c2⟩
    · simp only
      rcases key c2 with h | h
      · exact Or.inl h
      · exact Or.inr (Or.inl h)
    · exact Or.inr (Or.inr ⟨trivial, by simp⟩)

/-- C20 at the offset 5 and a server that answers REST with 500: the data
connection to port 51213 was dialed and `cmdDataConnFrom` returns the status
error without closing it; the log of the session ends with the read of the
reply to REST and holds no close. -/
theorem C20_rejected_rest_leaves_data_connection_open :
    cmdDataConnFrom
        (freshSession [.reply 227 "Entering Passive Mode (127,0,0,1,200,13)",
          .reply 500 "REST not understood"]) 5 "RETR f.txt"
      = (.err (.status 500 "REST not understood"),
          { freshSession [] with
            log := [.sent "PASV", .read 227, .dialed 51213, .sent "REST 5", .read 350] })
    ∧ Event.dataClosed ∉
        (cmdDataConnFrom
          (freshSession [.reply 227 "Entering Passive Mode (127,0,0,1,200,13)",
            .reply 500 "REST not understood"]) 5 "RETR f.txt").2.log := by
  decide

/-! ## Claims on openDataConn -/

/-- On an open session whose writes succeed, `cmd` changes the pending replies
and appends its two events to the log; all else stays. -/
theorem cmd_open_eq (c : ServerConn) (expected : Int) (line : String)
    (hopen : c.closed = false) (hw : c.writes = []) :
    ∃ inc, (cmd c expected line).2
      = { c with incoming := inc, log := c.log ++ [.sent line, .read expected] } := by
  rcases hi : c.incoming with _ | ⟨⟨code, msg⟩ | e, more⟩
  · exact ⟨[], by simp [cmd, connCmd, hopen, hw, connReadResponse, hi]⟩
  · refine ⟨more, ?_⟩
    simp only [cmd, connCmd, hopen, hw, Bool.false_eq_true, if_false, connReadResponse, hi]
    split_ifs <;> simp
  · exact ⟨more, by simp [cmd, connCmd, hopen, hw, connReadResponse, hi]⟩

theorem pasv_open (c : ServerConn) (hopen : c.closed = false) (hw : c.writes = []) :
    (pasv c).2.log = c.log ++ [.sent "PASV", .read StatusPassiveMode]
    ∧ (pasv c).2.closed = false ∧ (pasv c).2.writes = [] := by
  obtain ⟨inc, h⟩ := cmd_open_eq c StatusPassiveMode "PASV" hopen hw
  unfold pasv
  rcases hq : cmd c StatusPassiveMode "PASV" with ⟨⟨k, m, _ | e⟩, c1⟩ <;>
    · rw [hq] at h
      simp only at h
      simp [h, hopen, hw]

theorem epsv_open (c : ServerConn) (hopen : c.closed = false) (hw : c.writes = []) :
    (epsv c).2.log = c.log ++ [.sent "EPSV", .read StatusExtendedPassiveMode] := by
  obtain ⟨inc, h⟩ := cmd_open_eq c StatusExtendedPassiveMode "EPSV" hopen hw
  unfold epsv
  rcases hq : cmd c StatusExtendedPassiveMode "EPSV" with ⟨⟨k, m, _ | e⟩, c1⟩ <;>
    · rw [hq] at h
      simp only at h
      simp [h]

/-- The dial sends no command, and a connection it returns goes to the port
it was given. -/
theorem dialData_spec (c : ServerConn) (port : Int) :
    (∃ l, (dialData c port).2.log = c.log ++ l ∧ commandsOf l = [])
    ∧ ∀ conn, (dialData c port).1 = .ok conn → conn.port = port := by
  unfold dialData
  split
  · exact ⟨⟨[], by simp, rfl⟩, by simp⟩
  · split_ifs
    · refine ⟨⟨[.dialed port, .dataTLS], by simp, rfl⟩, ?_⟩
      intro conn h
      simp only [Res.ok.injEq] at h
      rw [← h]
    · refine ⟨⟨[.dialed port], by simp, rfl⟩, ?_⟩
      intro conn h
      simp only [Res.ok.injEq] at h
      rw [← h]

/-- The second half of `openDataConn` sends EPSV exactly when the port it
starts from is 0, and then returns the error of EPSV when there is one. -/
theorem openDataConnWith_spec (c : ServerConn) (port : Int)
    (hopen : c.closed = false) (hw : c.writes = []) :
    (∃ l, (openDataConnWith c port).2.log = c.log ++ l
      ∧ commandsOf l = if port = 0 then ["EPSV"] else [])
    ∧ (port ≠ 0 → openDataConnWith c port = dialData c port)
    ∧ (port = 0 → ∀ e, (epsv c).1 = .err e → (openDataConnWith c port).1 = .err e) := by
  have hlog := epsv_open c hopen hw
  refine ⟨?_, ?_, ?_⟩
  · unfold openDataConnWith
    by_cases hp : port = 0
    · simp only [hp, if_true]
      rcases hq : epsv c with ⟨_ | e | why, c1⟩
      · rw [hq] at hlog
        simp only at hlog
        obtain ⟨⟨l, hl, hcmd⟩, _⟩ := dialData_spec c1 ‹Int›
        refine ⟨[.sent "EPSV", .read StatusExtendedPassiveMode] ++ l, ?_, ?_⟩
        · simp only [hl, hlog, List.append_assoc]
        · simp only [commandsOf, List.filterMap_append] at hcmd ⊢
          rw [hcmd]
          rfl
      · rw [hq] at hlog
        simp only at hlog
        exact ⟨_, hlog, rfl⟩
      · rw [hq] at hlog
        simp only at hlog
        exact ⟨_, hlog, rfl⟩
    · simp only [hp, if_false]
      exact (dialData_spec c port).1
  · intro hp
    simp [openDataConnWith, hp]
  · intro hp e he
    unfold openDataConnWith
    simp only [hp, if_true]
    rcases hq : epsv c with ⟨_ | e1 | why, c1⟩
    · rw [hq] at he
      simp at he
    · rw [hq] at he
      simp only [Res.err.injEq] at he
      simp [he]
    · rw [hq] at he
      simp at he

/-- C17: on an open session whose writes succeed, `openDataConn` sends EPSV and
no PASV when the feature map has the key "EPSV" or "nat6"; otherwise it sends
PASV first, dials the PASV port when that is not 0, and sends EPSV exactly when
PASV returned an error or the port 0; the error of PASV is dropped (the call
goes on with EPSV), the error of EPSV is returned. -/
theorem C17_passive_mode_choice (c : ServerConn) (hopen : c.closed = false)
    (hw : c.writes = []) :
    ((hasFeature c "EPSV" = true ∨ hasFeature c "nat6" = true) →
        sentSince c (openDataConn c).2 = ["EPSV"]
        ∧ ∀ e, (epsv c).1 = .err e → (openDataConn c).1 = .err e)
    ∧ (hasFeature c "EPSV" = false → hasFeature c "nat6" = false →
        (sentSince c (openDataConn c).2 = ["PASV"]
          ∨ sentSince c (openDataConn c).2 = ["PASV", "EPSV"])
        ∧ ("EPSV" ∈ sentSince c (openDataConn c).2 ↔
            ((∃ e, (pasv c).1 = .err e) ∨ (pasv c).1 = .ok 0))
        ∧ (∀ port, (pasv c).1 = .ok port → port ≠ 0 →
            openDataConn c = dialData (pasv c).2 port
            ∧ ∀ conn, (openDataConn c).1 = .ok conn → conn.port = port)
        ∧ (∀ e, (pasv c).1 = .err e → openDataConn c = openDataConnWith (pasv c).2 0)
        ∧ (∀ e, ((∃ e1, (pasv c).1 = .err e1) ∨ (pasv c).1 = .ok 0) →
            (epsv (pasv c).2).1 = .err e → (openDataConn c).1 = .err e)) := by
  refine ⟨?_, ?_⟩
  · intro hfeat
    have hod : openDataConn c = openDataConnWith c 0 := by
      rcases hfeat with h | h <;> simp [openDataConn, h]
    obtain ⟨⟨l, hl, hcmd⟩, _, herr⟩ := openDataConnWith_spec c 0 hopen hw
    rw [hod]
    refine ⟨?_, herr rfl⟩
    rw [sentSince_of_log _ _ _ hl, hcmd]
    rfl
  · intro h1 h2
    obtain ⟨hplog, hpopen, hpw⟩ := pasv_open c hopen hw
    have hod : openDataConn c =
        match pasv c with
        | (.panic why, c1) => (.panic why, c1)
        | (.err _, c1) => openDataConnWith c1 0
        | (.ok port, c1) => openDataConnWith c1 port := by
      simp [openDataConn, h1, h2]
    rw [hod]
    rcases hq : pasv c with ⟨port | e | why, c1⟩
    · -- PASV gave a port
      rw [hq] at hplog hpopen hpw
      simp only at hplog hpopen hpw ⊢
      obtain ⟨⟨l, hl, hcmd⟩, hdial, herr⟩ := openDataConnWith_spec c1 port hpopen hpw
      rw [hplog, List.append_assoc] at hl
      have hsent : sentSince c (openDataConnWith c1 port).2
          = "PASV" :: (if port = 0 then ["EPSV"] else []) := by
        rw [sentSince_of_log _ _ _ hl]
        simp only [commandsOf, List.filterMap_append] at hcmd ⊢
        rw [hcmd]
        rfl
      rw [hsent]
      by_cases hp : port = 0
      · subst hp
        refine ⟨Or.inr rfl, by simp, ?_, by simp, ?_⟩
        · intro p hp1 hp2
          simp only [Res.ok.injEq] at hp1
          exact absurd hp1.symm hp2
        · intro e _ he
          exact herr rfl e he
      · refine ⟨Or.inl (by simp [hp]), by simp [hp], ?_, by simp, ?_⟩
        · intro p hp1 _
          simp only [Res.ok.injEq] at hp1
          subst hp1
          rw [hdial hp]
          exact ⟨rfl, (dialData_spec c1 port).2⟩
        · intro e hcase _
          rcases hcase with ⟨e1, h⟩ | h
          · simp at h
          · simp only [Res.ok.injEq] at h
            exact absurd h hp
    · -- PASV returned an error
      rw [hq] at hplog hpopen hpw
      simp only at hplog hpopen hpw ⊢
      obtain ⟨⟨l, hl, hcmd⟩, _, herr⟩ := openDataConnWith_spec c1 0 hpopen hpw
      rw [hplog, List.append_assoc] at hl
      have hsent : sentSince c (openDataConnWith c1 0).2 = ["PASV", "EPSV"] := by
        rw [sentSince_of_log _ _ _ hl]
        simp only [commandsOf, List.filterMap_append] at hcmd ⊢
        rw [hcmd]
        rfl
      rw [hsent]
      refine ⟨Or.inr rfl, by simp, by simp, by simp, ?_⟩
      intro e1 _ he
      exact herr rfl e1 he
    · -- PASV panicked
      rw [hq] at hplog
      simp only at hplog ⊢
      have hsent : sentSince c c1 = ["PASV"] := by
        rw [sentSince_of_log _ _ _ hplog]
        rfl
      rw [hsent]
      refine ⟨Or.inl rfl, by simp, by simp, by simp, ?_⟩
      intro e hcase _
      rcases hcase with ⟨e1, h⟩ | h <;> simp at h

/-- C17 at a server without the EPSV feature that answers PASV with 500 and
EPSV with the port 6446: the failure of PASV is not returned, the connection
goes to the port of EPSV. -/
theorem C17_passive_mode_choice_witness :
    sentSince (freshSession [.reply 500 "PASV not understood",
        .reply 229 "Entering Extended Passive Mode (|||6446|)"])
      (openDataConn (freshSession [.reply 500 "PASV not understood",
        .reply 229 "Entering Extended Passive Mode (|||6446|)"])).2 = ["PASV", "EPSV"]
    ∧ (openDataConn (freshSession [.reply 500 "PASV not understood",
        .reply 229 "Entering Extended Passive Mode (|||6446|)"])).1
      = .ok { port := 6446, secured := false } :=
  have h := (C17_passive_mode_choice (freshSession [.reply 500 "PASV not understood",
      .reply 229 "Entering Extended Passive Mode (|||6446|)"]) rfl rfl).2
    (by decide) (by decide)
  ⟨h.1.resolve_left (by decide), by decide⟩

/-! ## Claims on Feat -/

theorem lookup_filter_ne (m : List (String × String)) (k key : String) (h : key ≠ k) :
    (m.filter (fun kv => kv.1 ≠ k)).lookup key = m.lookup key := by
  induction m with
  | nil => rfl
  | cons kv m ih =>
    obtain ⟨a, b⟩ := kv
    by_cases hak : a = k
    · subst hak
      have hne : (key == a) = false := by simpa using h
      simp only [List.filter_cons, ne_eq, not_true_eq_false, decide_False, Bool.false_eq_true,
        if_false, List.lookup_cons, hne]
      exact ih
    · by_cases hka : key = a
      · subst hka
        simp [List.filter_cons, hak, List.lookup_cons]
      · have hne : (key == a) = false := by simpa using hka
        simp only [List.filter_cons, ne_eq, hak, not_false_eq_true, decide_True, if_true,
          List.lookup_cons, hne]
        exact ih

theorem lookup_setFeature (m : List (String × String)) (k v key : String) :
    (setFeature m k v).lookup key = if key = k then some v else m.lookup key := by
  unfold setFeature
  by_cases h : key = k
  · subst h
    simp [List.lookup_cons]
  · have hne : (key == k) = false := by simpa using h
    simp only [List.lookup_cons, hne, h, if_false]
    exact lookup_filter_ne m k key h

theorem featLine_eq (features : List (String × String)) (line : String) :
    featLine features line
      = if HasPrefix line " " then setFeature features (featEntry line).1 (featEntry line).2
        else features := by
  unfold featLine featEntry
  by_cases h : HasPrefix line " " = true <;> simp [h]

theorem lookup_append_single (l : List (String × String)) (n v key : String) :
    (l ++ [(n, v)]).lookup key
      = match l.lookup key with
        | some d => some d
        | none => if key = n then some v else none := by
  induction l with
  | nil =>
    by_cases h : key = n
    · subst h
      simp [List.lookup_cons]
    · have hne : (key == n) = false := by simpa using h
      simp [List.lookup_cons, hne, h]
  | cons kv l ih =>
    obtain ⟨a, b⟩ := kv
    by_cases h : key = a
    · subst h
      simp [List.lookup_cons]
    · have hne : (key == a) = false := by simpa using h
      simp only [List.cons_append, List.lookup_cons, hne]
      exact ih

/-- The feature map after the loop of `Feat` over the lines: the description of
the last indented line with the name when there is one, the earlier entry
otherwise. -/
theorem lookup_foldl_featLine (key : String) :
    ∀ (lines : List String) (m : List (String × String)),
      (lines.foldl featLine m).lookup key
        = match (((lines.filter (fun line => HasPrefix line " ")).map featEntry).reverse).lookup
            key with
          | some d => some d
          | none => m.lookup key := by
  intro lines
  induction lines with
  | nil => intro m; simp
  | cons line lines ih =>
    intro m
    rw [List.foldl_cons, ih, featLine_eq]
    by_cases hp : HasPrefix line " " = true
    · simp only [hp, if_true, List.filter_cons, List.map_cons, List.reverse_cons]
      rw [lookup_append_single, lookup_setFeature]
      rcases (List.map featEntry (List.filter (fun line => HasPrefix line " ") lines)).reverse.lookup
        key with _ | d
      · simp only
        split_ifs <;> rfl
      · rfl
    · simp [hp, List.filter_cons]

/-- C11, as amended: after `Feat` read a 211 reply, the feature map holds for
every name parsed from an indented line of the reply the description of the
last such line (name: the text up to the first space of the trimmed line,
description: the rest or the empty string), and under every other name the
entry it held before. -/
theorem C11_feat_merges_into_map (c : ServerConn) (message : String) (rest : List Incoming)
    (hopen : c.closed = false) (hw : c.writes = [])
    (hin : c.incoming = .reply 211 message :: rest) :
    (Feat c).1 = none
    ∧ ∀ key, (Feat c).2.features.lookup key
        = match (parsedFeatures message).reverse.lookup key with
          | some description => some description
          | none => c.features.lookup key := by
  have hu : unexpected (-1) 211 = false := by decide
  have hs : ((211 : Nat) : Int) = StatusSystem := by decide
  simp only [Feat, cmd_reply c (-1) "FEAT" 211 message rest hopen hw hin, hu,
    Bool.false_eq_true, if_false, hs, ne_eq, not_true_eq_false, true_and]
  intro key
  exact lookup_foldl_featLine key (Split message '\n') c.features

/-- C11 at a session that recorded EPSV and MDTM before and now reads a reply
that lists UTF8 and a new description of MDTM. -/
theorem C11_feat_merges_into_map_witness :
    (Feat { freshSession [.reply 211 "Features:\n UTF8\n MDTM new\nEnd"] with
        features := [("EPSV", ""), ("MDTM", "old")] }).2.features.lookup "MDTM"
      = match (parsedFeatures "Features:\n UTF8\n MDTM new\nEnd").reverse.lookup "MDTM" with
        | some description => some description
        | none => ([("EPSV", ""), ("MDTM", "old")] : List (String × String)).lookup "MDTM" :=
  (C11_feat_merges_into_map
    { freshSession [.reply 211 "Features:\n UTF8\n MDTM new\nEnd"] with
      features := [("EPSV", ""), ("MDTM", "old")] }
    "Features:\n UTF8\n MDTM new\nEnd" [] rfl rfl rfl).2 "MDTM"

/-- C11 as stated fails: a session that recorded EPSV in an earlier probe and
now reads a 211 reply whose only indented line is " UTF8" still has EPSV in
its feature map after `Feat`. -/
theorem C11_earlier_feature_stays :
    parsedFeatures "Features:\n UTF8\nEnd" = [("UTF8", "")]
    ∧ (Feat { freshSession [.reply 211 "Features:\n UTF8\nEnd"] with
        features := [("EPSV", "")] }).2.features = [("UTF8", ""), ("EPSV", "")]
    ∧ hasFeature (Feat { freshSession [.reply 211 "Features:\n UTF8\nEnd"] with
        features := [("EPSV", "")] }).2 "EPSV" = true := by
  decide

/-! ## Claims on the listing decoders -/

/-- C13 at the empty line, the one-word line "total", the line "total 12" of a
Unix listing and the line "total 0": whatever the library does, `parseListLine`
panics (the Unix-style decoder reads `fields[1]` and `fields[7:]` without
looking at the number of fields, the DOS-style decoder cuts 17 characters off
a shorter line), and `List` ends in that panic at the first such line instead
of going on with the next one. -/
theorem C13_short_lines_panic (lib : EntryLib) :
    parseListLine lib "" = .panic "index out of range"
    ∧ parseListLine lib "total" = .panic "index out of range"
    ∧ parseListLine lib "total 12" = .panic "slice bounds out of range"
    ∧ parseListLine lib "total 0" = .panic "slice bounds out of range"
    ∧ (ServerConn.List
        (freshSession [.reply 227 "Entering Passive Mode (127,0,0,1,200,13)",
          .reply 150 "Here comes the directory listing", .reply 226 "Directory send OK"])
        lib "/" ["", "-rw-r--r-- 1 user group 5 Jan 01 10:00 f.txt"] none).1
      = .panic "index out of range" := by
  refine ⟨rfl, rfl, rfl, rfl, rfl⟩

/-- The chain of decoders written out: the first of the three, in the order of
`listLineParsers`, that does not answer "unsupported format" gives the result. -/
theorem parseListLine_unfold (lib : EntryLib) (line : String) :
    parseListLine lib line =
      if parseRFC3659ListLine lib line ≠ .unsupported then parseRFC3659ListLine lib line
      else if parseLsListLine lib line ≠ .unsupported then parseLsListLine lib line
      else parseDirListLine lib line := by
  simp only [parseListLine, listLineParsers, firstSupported]
  rcases h1 : parseRFC3659ListLine lib line with e | _ | err | why <;> simp only [ne_eq] <;>
    try simp
  rcases h2 : parseLsListLine lib line with e | _ | err | why <;> simp only [ne_eq] <;>
    try simp
  rcases h3 : parseDirListLine lib line with e | _ | err | why <;> rfl

/-- C14: on a line on which `parseRFC3659ListLine` does not answer "unsupported
format", `parseListLine` returns the result of that decoder, whatever decoders
come after it in the chain; the chain is the structured-facts decoder, then the
Unix-style one, then the DOS-style one, and the first that does not answer
"unsupported format" decides. -/
theorem C14_structured_facts_first (lib : EntryLib) (line : String)
    (h : parseRFC3659ListLine lib line ≠ .unsupported) :
    parseListLine lib line = parseRFC3659ListLine lib line
    ∧ (∀ later : List (String → Parsed),
        firstSupported (parseRFC3659ListLine lib :: later) line
          = parseRFC3659ListLine lib line)
    ∧ listLineParsers lib
        = [parseRFC3659ListLine lib, parseLsListLine lib, parseDirListLine lib]
    ∧ (∀ other : String, parseListLine lib other =
        if parseRFC3659ListLine lib other ≠ .unsupported then parseRFC3659ListLine lib other
        else if parseLsListLine lib other ≠ .unsupported then parseLsListLine lib other
        else parseDirListLine lib other) := by
  have hfirst : ∀ later : List (String → Parsed),
      firstSupported (parseRFC3659ListLine lib :: later) line
        = parseRFC3659ListLine lib line := by
    intro later
    rcases h1 : parseRFC3659ListLine lib line with e | _ | err | why
    · simp only [firstSupported, h1]
    · exact absurd h1 h
    · simp only [firstSupported, h1]
    · simp only [firstSupported, h1]
  exact ⟨hfirst _, hfirst, rfl, parseListLine_unfold lib⟩

/-- C14 at a line of structured facts. -/
theorem C14_structured_facts_first_witness :
    parseListLine plainLib "type=file;size=5;modify=20200101000000; f.txt"
      = parseRFC3659ListLine plainLib "type=file;size=5;modify=20200101000000; f.txt"
    ∧ parseRFC3659ListLine plainLib "type=file;size=5;modify=20200101000000; f.txt"
      = .entry { Name := "f.txt", Kind := .EntryTypeFile, Size := 5, Time := 0 } :=
  ⟨(C14_structured_facts_first plainLib "type=file;size=5;modify=20200101000000; f.txt"
      (by decide)).1, by decide⟩

/-! ## Claims on the TLS configuration -/

/-- C15, as amended: for every certificate file that can be read and holds at
least one PEM certificate, `generateTLSConfig` returns no error and a
configuration in which the verification of the server certificate is switched
off (`InsecureSkipVerify` is set). -/
theorem C15_config_skips_verification (store : CertStore) (certfile pem : String)
    (hread : store.ReadFile certfile = .ok pem) (hpem : store.certsOfPEM pem ≠ []) :
    (generateTLSConfig store certfile).2 = none
    ∧ (generateTLSConfig store certfile).1.InsecureSkipVerify = true := by
  simp [generateTLSConfig, hread, hpem]

/-- C15 at the file "server.pem" with one certificate. -/
theorem C15_config_skips_verification_witness :
    (generateTLSConfig plainStore "server.pem").2 = none
    ∧ (generateTLSConfig plainStore "server.pem").1.InsecureSkipVerify = true :=
  C15_config_skips_verification plainStore "server.pem" "-----BEGIN CERTIFICATE-----"
    (by rfl) (by decide)

/-- C15 as stated fails: for the file "server.pem", in which one certificate is
found, the configuration that comes back has `InsecureSkipVerify` set and no
root pool. -/
theorem C15_verification_is_disabled :
    plainStore.certsOfPEM "-----BEGIN CERTIFICATE-----" = ["server"]
    ∧ generateTLSConfig plainStore "server.pem"
      = ({ InsecureSkipVerify := true, RootCAs := none }, none) := by
  decide

end Ftps
